import Mathlib

/-!
Verification development for the Agent Supervisor Core of the cc-spec tool.

The definitions below are a shallow embedding, translated from the Rust
sources under `apps/cc-spec-tool/src-tauri/src/`:

* `JVal` models `serde_json::Value`; objects are association lists whose
  insert replaces the value at the first matching key (serde maps have
  unique keys, so this is observationally the map behaviour).
* The session store (`codex_sessions.rs`), supervisor ingest handler,
  ingress endpoint (`main.rs`), relay exit classification
  (`bin/cc-spec-codex-relay.rs`), admission controller (`concurrency.rs`)
  and event dispatcher (`events.rs`) are each embedded as pure functions;
  wall-clock reads (`now_iso`, `now_ms`) and freshly minted UUIDs are
  passed as explicit parameters, and OS process liveness is a parameter
  predicate.
-/

namespace CcSpec

/-- Model of `serde_json::Value`. Numbers are modelled as integers
(the fields the supervisor core reads are all read with `as_i64`/`as_u64`). -/
inductive JVal where
  | null : JVal
  | bool (b : Bool) : JVal
  | num (n : Int) : JVal
  | str (s : String) : JVal
  | arr (xs : List JVal) : JVal
  | obj (fields : List (String × JVal)) : JVal
deriving Inhabited

namespace JVal

/-- `Value::as_str`. -/
def asStr : JVal → Option String
  | .str s => some s
  | _ => none

/-- `Value::as_i64`. -/
def asI64 : JVal → Option Int
  | .num n => some n
  | _ => none

/-- `Value::as_u64` (numbers are stored as `Int`; nonnegative only). -/
def asU64 : JVal → Option Int
  | .num n => if 0 ≤ n then some n else none
  | _ => none

end JVal

/-- Lookup of a key in an object field list (`Map::get`): first match. -/
def objLookup (o : List (String × JVal)) (k : String) : Option JVal :=
  match o with
  | [] => none
  | (k1, v) :: rest => if k1 = k then some v else objLookup rest k

/-- `Map::insert`: replace the value at the first matching key, or append. -/
def objInsert (o : List (String × JVal)) (k : String) (v : JVal) :
    List (String × JVal) :=
  match o with
  | [] => [(k, v)]
  | (k1, v1) :: rest =>
    if k1 = k then (k1, v) :: rest else (k1, v1) :: objInsert rest k v

/-- `Map::entry(k).or_insert(v)`: insert only when the key is absent. -/
def entryOr (o : List (String × JVal)) (k : String) (v : JVal) :
    List (String × JVal) :=
  match objLookup o k with
  | some _ => o
  | none => o ++ [(k, v)]

/-- Remove every entry with key `k` (used to compare records modulo a field
and to restrict a document to the other sessions). -/
def eraseKey (o : List (String × JVal)) (k : String) : List (String × JVal) :=
  match o with
  | [] => []
  | p :: rest => if p.1 = k then eraseKey rest k else p :: eraseKey rest k

/-- `payload.get(k)` on a `Value`. -/
def jget (v : JVal) (k : String) : Option JVal :=
  match v with
  | .obj o => objLookup o k
  | _ => none

/-- `payload.get(k).and_then(|v| v.as_str())`. -/
def jgetStr (v : JVal) (k : String) : Option String :=
  (jget v k).bind JVal.asStr

/-- `payload.get(k).and_then(|v| v.as_i64())`. -/
def jgetI64 (v : JVal) (k : String) : Option Int :=
  (jget v k).bind JVal.asI64

/-- Whether field `k` is present and JSON `null`. -/
def jgetIsNull (v : JVal) (k : String) : Bool :=
  match jget v k with
  | some .null => true
  | _ => false

/-- A JSON string or null, from an optional Rust `String` (serde for `Option`). -/
def optStr : Option String → JVal
  | some s => .str s
  | none => .null

/-- A JSON number or null, from an optional Rust integer. -/
def optNum : Option Int → JVal
  | some n => .num n
  | none => .null

/-- `s.trim().is_empty()`: every character is whitespace (the ASCII
whitespace relevant to session ids and project roots; `char::is_whitespace`
also covers further Unicode space characters). -/
def trimEmpty (s : String) : Bool :=
  s.toList.all (fun c => c = ' ' || c = '\t' || c = '\n' || c = '\r')

/-! ## Session store (`codex_sessions.rs`)

`sessions.json` is a JSON document `{schema_version, updated_at, sessions}`.
The file I/O itself (load / atomic replace) is not modelled; the functions
below are the document-to-document transformations performed under the
process-wide file lock.  The timestamps produced by the successive
`now_iso()` calls are passed as explicit string parameters. -/

/-- `data.get_mut("sessions").and_then(|v| v.as_object_mut())`. -/
def getSessionsObj (doc : JVal) : Option (List (String × JVal)) :=
  match jget doc "sessions" with
  | some (.obj sess) => some sess
  | _ => none

/-- Replace the `sessions` field of the (object) document. -/
def setSessions (doc : JVal) (sess : List (String × JVal)) : JVal :=
  match doc with
  | .obj fields => .obj (objInsert fields "sessions" (.obj sess))
  | v => v

/-- `save_sessions` normalisation of the top-level document: insert
`schema_version = 1`, `updated_at = tSave`, and ensure a `sessions` field. -/
def saveNormalize (doc : JVal) (tSave : String) : JVal :=
  match doc with
  | .obj fields =>
    .obj (entryOr
      (objInsert (objInsert fields "schema_version" (.num 1))
        "updated_at" (.str tSave))
      "sessions" (.obj []))
  | v => v

/-- The record-field merge loop of `upsert_session_record`:
`for (k, v) in patch_obj { obj.insert(k, v) }`. -/
def mergeObj (o : List (String × JVal)) (p : List (String × JVal)) :
    List (String × JVal) :=
  match p with
  | [] => o
  | (k, v) :: rest => mergeObj (objInsert o k v) rest

/-- `if let Some(patch_obj) = patch.as_object()`: merge only object patches. -/
def mergeFields (o : List (String × JVal)) (patch : JVal) :
    List (String × JVal) :=
  match patch with
  | .obj p => mergeObj o p
  | _ => o

/-- The record computation inside `upsert_session_record`:
`sessions.entry(session_id).or_insert_with(...)`, then (when the record is
an object) merge the patch fields, insert `updated_at`, and
`entry("kind").or_insert("terminal")`. -/
def upsertRec (sess : List (String × JVal)) (session_id : String)
    (patch : JVal) (tCreate tUpd : String) : JVal :=
  match (objLookup sess session_id).getD
      (.obj [("session_id", .str session_id), ("created_at", .str tCreate)]) with
  | .obj f =>
    .obj (entryOr (objInsert (mergeFields f patch) "updated_at" (.str tUpd))
      "kind" (.str "terminal"))
  | v => v

/-- `upsert_session_record(project_root, session_id, patch)` as a pure
transformation of the loaded document.  `tCreate` is the `now` captured for
`created_at`, `tUpd` the `now_iso()` written into the record, and `tSave`
the `now_iso()` written by `save_sessions`.  Returns the document that is
written back (the empty-argument guard writes nothing, so the stored
document is unchanged). -/
def upsert_session_record (project_root session_id : String) (patch : JVal)
    (tCreate tUpd tSave : String) (doc : JVal) : Except String JVal :=
  if trimEmpty project_root || trimEmpty session_id then .ok doc
  else
    match getSessionsObj doc with
    | none => .error "Missing sessions field"
    | some sess =>
      .ok (saveNormalize (setSessions doc
        (objInsert sess session_id
          (upsertRec sess session_id patch tCreate tUpd))) tSave)

/-- The stale test of `reconcile_stale_sessions`: state is `"running"`,
`pid` is positive, and the OS liveness check fails.  `alive` is the
`is_process_running` oracle (modelled total: an `Err` from the OS check
aborts the whole reconciliation without saving). -/
def staleB (alive : Int → Bool) (rec : JVal) : Bool :=
  ((jgetStr rec "state").getD "" = "running") &&
  (0 < (jgetI64 rec "pid").getD 0) &&
  !(alive ((jgetI64 rec "pid").getD 0))

/-- The patch applied to a stale record. -/
def patchStale (t : String) (rec : JVal) : JVal :=
  match rec with
  | .obj f =>
    .obj (objInsert
      (objInsert (objInsert (objInsert f "state" (.str "exited"))
        "last_exit_reason" (.str "stale_pid"))
        "exit_code" .null)
      "updated_at" (.str t))
  | v => v

/-- The scan loop of `reconcile_stale_sessions`: patch each stale record and
collect the stale session ids. -/
def reconcileScan (alive : Int → Bool) (t : String) :
    List (String × JVal) → List (String × JVal) × List String
  | [] => ([], [])
  | (sid, rec) :: rest =>
    let (rest1, ids) := reconcileScan alive t rest
    if staleB alive rec then ((sid, patchStale t rec) :: rest1, sid :: ids)
    else ((sid, rec) :: rest1, ids)

/-- `HashMap::remove` on the supervisor map, one id at a time. -/
def supRemoveIds (ids : List String) (sup : List (String × α)) :
    List (String × α) :=
  sup.filter (fun p => ¬ ids.contains p.1)

/-- `reconcile_stale_sessions(project_root)` as a pure transformation:
returns the new document, the new supervisor map, and the `changed` flag.
When nothing changed the file is not rewritten, so the document is returned
unchanged (without `save_sessions` normalisation). -/
def reconcile_stale_sessions (alive : Int → Bool) (t tSave : String)
    (doc : JVal) (sup : List (String × α)) :
    Except String (JVal × List (String × α) × Bool) :=
  match getSessionsObj doc with
  | none => .error "Missing sessions field"
  | some sess =>
    let (sess1, staleIds) := reconcileScan alive t sess
    let changed := !staleIds.isEmpty
    if changed then
      .ok (saveNormalize (setSessions doc sess1) tSave,
           supRemoveIds staleIds sup, true)
    else
      .ok (doc, sup, false)

/-! ## Supervisor (`codex_sessions.rs`, `handle_ingest_event`)

The in-memory `SUPERVISOR: HashMap<String, SupervisorSession>` is modelled
as an association list with unique keys.  `now_iso()`, `now_ms()` and
`Uuid::new_v4()` are supplied through an `IngestCtx`.  The handler's side
effects — file upserts and SSE broadcasts — are returned as lists in call
order.  The `retry_count: u32` is modelled as `Nat` (a debug build panics
on overflow; wraparound needs 2^32 crash exits of one session and is
outside the model). -/

/-- `AUTO_RETRY_MAX`. -/
def AUTO_RETRY_MAX : Nat := 3

/-- `should_auto_retry`. -/
def should_auto_retry (exit_reason : String) : Bool :=
  exit_reason = "crash_or_unknown" || exit_reason = "crash" ||
  exit_reason = "unknown"

/-- `PendingRequest`. -/
structure PendingRequest where
  id : String
  prompt : String
  requested_by : String
  created_at_ms : Nat
deriving DecidableEq, Repr

/-- `SupervisorSession` (in-memory, per session id). -/
structure SupervisorSession where
  project_root : Option String := none
  pending : Option PendingRequest := none
  retry_count : Nat := 0
  last_stop_requested_by : Option String := none
deriving DecidableEq, Repr, Inhabited

/-- The supervisor map. -/
abbrev SupMap := List (String × SupervisorSession)

/-- Key lookup in an association-list map (`HashMap::get`). -/
def alookup (m : List (String × α)) (k : String) : Option α :=
  match m with
  | [] => none
  | (k1, v) :: rest => if k1 = k then some v else alookup rest k

/-- The entry for a session id, defaulting like `entry(..).or_default()`. -/
def getSup (m : SupMap) (sid : String) : SupervisorSession :=
  (alookup m sid).getD {}

/-- `supervisor_update`: `entry(sid).or_default()` then mutate. -/
def supUpdate (m : SupMap) (sid : String)
    (f : SupervisorSession → SupervisorSession) : SupMap :=
  match m with
  | [] => [(sid, f {})]
  | (k, s) :: rest =>
    if k = sid then (k, f s) :: rest else (k, s) :: supUpdate rest sid f

/-- `supervisor_peek_pending`. -/
def supPeekPending (m : SupMap) (sid : String) : Option PendingRequest :=
  (alookup m sid).bind (fun s => s.pending)

/-- `supervisor_take_pending`: `get_mut(sid).and_then(|s| s.pending.take())`
(no entry is created when the session is absent). -/
def supTakePending (m : SupMap) (sid : String) :
    Option PendingRequest × SupMap :=
  match m with
  | [] => (none, [])
  | (k, s) :: rest =>
    if k = sid then (s.pending, (k, { s with pending := none }) :: rest)
    else
      let (p, rest1) := supTakePending rest sid
      (p, (k, s) :: rest1)

/-- `supervisor_inc_retry`: increment and return the new counter. -/
def supIncRetry (m : SupMap) (sid : String) : Nat × SupMap :=
  match m with
  | [] => (1, [(sid, { retry_count := 1 })])
  | (k, s) :: rest =>
    if k = sid then
      (s.retry_count + 1,
       (k, { s with retry_count := s.retry_count + 1 }) :: rest)
    else
      let (n, rest1) := supIncRetry rest sid
      (n, (k, s) :: rest1)

/-- `supervisor_reset_retry`. -/
def supResetRetry (m : SupMap) (sid : String) : SupMap :=
  supUpdate m sid (fun s => { s with retry_count := 0 })

/-- Wall clock and fresh-UUID inputs consumed by one handler invocation. -/
structure IngestCtx where
  ts : String
  nowMs : Nat
  freshId : String

/-- An `upsert_session_record(project_root, session_id, patch)` call. -/
abbrev UpsertCall := String × String × JVal

/-- `handle_ingest_event(payload, publish)`: returns the new supervisor map,
the session-store upserts, and the `(event name, body)` pairs handed to
`publish_sse_event`, each in call order. -/
def handleIngestEvent (ctx : IngestCtx) (payload : JVal) (sup : SupMap) :
    SupMap × List UpsertCall × List (String × JVal) :=
  let event_type := (jgetStr payload "type").getD ""
  let session_id := (jgetStr payload "session_id").getD ""
  let project_root := (jgetStr payload "project_root").getD ""
  if session_id = "" then (sup, [], [])
  else if event_type = "codex.session.started" then
    let pid := (jget payload "pid").bind JVal.asU64
    let patch := JVal.obj [("state", .str "running"), ("pid", optNum pid),
      ("kind", .str "terminal"), ("mode", .str "interactive"),
      ("last_exit_reason", .null), ("exit_code", .null)]
    let sup1 := supUpdate sup session_id (fun s =>
      if trimEmpty project_root then s
      else { s with project_root := some project_root })
    (sup1, [(project_root, session_id, patch)], [])
  else if event_type = "codex.session.exited" then
    let exit_code := jgetI64 payload "exit_code"
    let exit_reason := (jgetStr payload "exit_reason").getD "unknown"
    let patch := JVal.obj [("state", .str "exited"),
      ("exit_code", optNum exit_code), ("last_exit_reason", .str exit_reason)]
    match supPeekPending sup session_id with
    | some pending =>
      if should_auto_retry exit_reason then
        let (retry_n, sup1) := supIncRetry sup session_id
        if retry_n ≤ AUTO_RETRY_MAX then
          let ctrl := JVal.obj [("type", .str "codex.control"),
            ("ts", .str ctx.ts), ("project_root", .str project_root),
            ("session_id", .str session_id), ("action", .str "retry"),
            ("requested_by", .str "tool"), ("request_id", .str pending.id),
            ("text", .str pending.prompt)]
          let note := JVal.obj [("type", .str "codex.retry_scheduled"),
            ("ts", .str ctx.ts), ("session_id", .str session_id),
            ("request_id", .str pending.id), ("attempt", .num retry_n)]
          (sup1, [(project_root, session_id, patch)],
           [("codex.control", ctrl), ("codex.retry_scheduled", note)])
        else (sup1, [(project_root, session_id, patch)], [])
      else (sup, [(project_root, session_id, patch)], [])
    | none => (sup, [(project_root, session_id, patch)], [])
  else if event_type = "codex.turn_complete" then
    let message := (jgetStr payload "last_assistant_message").getD ""
    let thread_id := jgetStr payload "thread_id"
    let turn_id := jgetStr payload "turn_id"
    let patch := JVal.obj [("message", .str message),
      ("thread_id", optStr thread_id), ("turn_id", optStr turn_id),
      ("state", .str "running")]
    let (taken, sup1) := supTakePending sup session_id
    match taken with
    | some pending =>
      let sup2 := supResetRetry sup1 session_id
      let managed := JVal.obj [("type", .str "codex.managed.turn_complete"),
        ("ts", .str ctx.ts), ("session_id", .str session_id),
        ("request_id", .str pending.id),
        ("requested_by", .str pending.requested_by),
        ("created_at_ms", .num pending.created_at_ms),
        ("thread_id", (jget payload "thread_id").getD .null),
        ("turn_id", (jget payload "turn_id").getD .null),
        ("cwd", (jget payload "cwd").getD .null),
        ("input_messages", (jget payload "input_messages").getD .null),
        ("last_assistant_message",
          (jget payload "last_assistant_message").getD .null)]
      (sup2, [(project_root, session_id, patch)],
       [("codex.managed.turn_complete", managed)])
    | none => (sup1, [(project_root, session_id, patch)], [])
  else if event_type = "codex.control.error" then
    let action := (jgetStr payload "action").getD "unknown"
    let error := (jgetStr payload "error").getD "unknown"
    let request_id := (jgetStr payload "request_id").getD ""
    let requested_by := (jgetStr payload "requested_by").getD "unknown"
    let msg :=
      if request_id = "" then
        "[tool] " ++ action ++ " 失败（by=" ++ requested_by ++ "）：" ++ error
      else
        "[tool] " ++ action ++ " 失败（by=" ++ requested_by ++
          ", request_id=" ++ request_id ++ "）：" ++ error
    let patch := JVal.obj [("message", .str msg), ("state", .str "running")]
    let sup1 :=
      match supPeekPending sup session_id with
      | some pending =>
        if request_id = "" ∨ pending.id = request_id then
          (supTakePending sup session_id).2
        else sup
      | none => sup
    (sup1, [(project_root, session_id, patch)], [])
  else if event_type = "codex.control" then
    let action := (jgetStr payload "action").getD ""
    let requested_by := (jgetStr payload "requested_by").getD "unknown"
    if action = "send_input" then
      let text := (jgetStr payload "text").getD ""
      let request_id := (jgetStr payload "request_id").getD ""
      if trimEmpty text then (sup, [], [])
      else
        let sup1 := supUpdate sup session_id (fun s =>
          let s1 :=
            if trimEmpty project_root then s
            else { s with project_root := some project_root }
          let pr : PendingRequest :=
            { id := if request_id = "" then ctx.freshId else request_id,
              prompt := text, requested_by := requested_by,
              created_at_ms := ctx.nowMs }
          { s1 with pending := some pr })
        (sup1, [], [])
    else if action = "pause" ∨ action = "kill" ∨ action = "restart" ∨
        action = "retry" then
      (supUpdate sup session_id
        (fun s => { s with last_stop_requested_by := some requested_by }),
       [], [])
    else (sup, [], [])
  else (sup, [], [])

/-- Processing a sequence of ingested payloads, concatenating the SSE
broadcasts (one `IngestCtx` per trace; the timestamps play no role in the
properties proved below). -/
def runIngest (ctx : IngestCtx) (sup : SupMap) :
    List JVal → SupMap × List (String × JVal)
  | [] => (sup, [])
  | p :: rest =>
    let r1 := handleIngestEvent ctx p sup
    let r2 := runIngest ctx r1.1 rest
    (r2.1, r1.2.2 ++ r2.2)

/-- Number of `codex.control` broadcasts (every `codex.control` the handler
publishes is a synthesized retry control). -/
def countRetryCtl (outs : List (String × JVal)) : Nat :=
  (outs.filter (fun o => o.1 = "codex.control")).length

/-! ## Ingress endpoint (`main.rs`, `handle_ingest`)

`handle_ingest` receives the raw request body and its
`serde_json::from_str::<Value>(&body).ok()` parse (the text-to-JSON parser
itself is not modelled: the parse result is a parameter).  Everything the
broadcaster publishes is collected in order; the supervisor side uses the
embedding above.  JSON-to-text serialization inside
`publish_agent_from_ingest` is abstracted by keeping the structured event. -/

/-- `AgentEventType` (`events.rs`), fields as mapped by
`publish_agent_from_ingest`. -/
inductive AgentEventType where
  | started (pid : Option Int) (project_root : Option String)
  | stream (text : String) (channel : Option String) (partial1 : Option Bool)
  | toolRequest (tool_name : String)
  | toolResult (tool_name : String) (success : Bool)
  | completed (success : Bool) (exit_code : Option Int)
      (durationPresent : Bool)
  | error (message : String) (error_type : Option String)
      (recoverable : Option Bool)
  | heartbeat (last_activity : Option String)
deriving DecidableEq, Repr

/-- `AgentSource`. -/
inductive AgentSource where
  | claude | codex | system | viewer
deriving DecidableEq, Repr

/-- One item published on the `Broadcaster`.  `raw` is a literal SSE string;
`supSse` is a `publish_sse_event` call (name and still-structured body);
`agentSse` is the serialized `AgentEvent` frame of
`publish_agent_from_ingest`. -/
inductive BMsg where
  | raw (s : String)
  | supSse (name : String) (body : JVal)
  | agentSse (event_type : AgentEventType) (source : AgentSource)
      (session_id run_id : String)

/-- The SSE framing `format!("event: {}\ndata: {}\n\n", name, payload)`. -/
def sseFrame (name data : String) : String :=
  "event: " ++ name ++ "\ndata: " ++ data ++ "\n\n"

/-- `normalize_agent_ids`. -/
def normalizeAgentIds (payload : JVal) : String × String :=
  let session_id := (jgetStr payload "session_id").getD ""
  let run_id := (jgetStr payload "run_id").getD ""
  let sid := if session_id = "" then run_id else session_id
  let rid := if run_id = "" then sid else run_id
  let sid1 := if sid = "" then "unknown" else sid
  let rid1 := if rid = "" then sid1 else rid
  (sid1, rid1)

/-- The event-type mapping of `publish_agent_from_ingest`.  The `duration_s`
float is tracked only by presence (floating point is outside the model); it
does not influence any control flow. -/
def mapIngestAgentEvent (payload : JVal) :
    Option (AgentEventType × AgentSource) :=
  let event_type := (jgetStr payload "type").getD ""
  if event_type = "codex.started" then
    some (.started ((jget payload "pid").bind JVal.asU64)
      (jgetStr payload "project_root"), .codex)
  else if event_type = "codex.stream" then
    some (.stream ((jgetStr payload "text").getD "")
      (jgetStr payload "stream") none, .codex)
  else if event_type = "codex.completed" then
    some (.completed
      (((jget payload "success").bind (fun v =>
          match v with | .bool b => some b | _ => none)).getD false)
      ((jgetI64 payload "exit_code"))
      ((jget payload "duration_s").isSome), .codex)
  else if event_type = "codex.error" then
    some (.error ((jgetStr payload "message").getD "unknown error")
      (jgetStr payload "error_type") none, .codex)
  else if event_type = "codex.user_input" then
    some (.stream ((jgetStr payload "text").getD "")
      (some "user_input") none, .viewer)
  else none

/-- `publish_agent_from_ingest` as the optional broadcast it performs. -/
def publishAgentFromIngest (payload : JVal) : List BMsg :=
  match mapIngestAgentEvent payload with
  | some (event_type, source) =>
    let ids := normalizeAgentIds payload
    [.agentSse event_type source ids.1 ids.2]
  | none => []

/-- Outcome of one `handle_ingest` call. -/
structure IngestOutcome where
  status : String
  respBody : String
  broadcasts : List BMsg

/-- `handle_ingest(stream, broadcaster, dispatcher, body)` with
`parsed = serde_json::from_str::<Value>(&body).ok()`. -/
def handle_ingest (parsed : Option JVal) (body : String) (ctx : IngestCtx)
    (sup : SupMap) : IngestOutcome × SupMap × List UpsertCall :=
  let event_name :=
    (parsed.bind (fun v => jgetStr v "type")).getD "codex.stream"
  let rawMsg := BMsg.raw (sseFrame event_name body)
  match parsed with
  | some value =>
    let r := handleIngestEvent ctx value sup
    let supMsgs := r.2.2.map (fun o => BMsg.supSse o.1 o.2)
    let agentMsgs := publishAgentFromIngest value
    ({ status := "HTTP/1.1 202 Accepted", respBody := "ok",
       broadcasts := rawMsg :: (supMsgs ++ agentMsgs) }, r.1, r.2.1)
  | none =>
    ({ status := "HTTP/1.1 202 Accepted", respBody := "ok",
       broadcasts := [rawMsg] }, sup, [])

/-! ## Relay exit classification (`bin/cc-spec-codex-relay.rs`)

Two divergent `RelayEvent::ChildExited` arms classify the exit of the
current-generation child.  `main_pty` (POSIX, lines 1362-1402) consults
`last_user_interrupt_at_ms` (set when the stdin thread sees an ETX byte);
`main_windows_direct` (lines 487-523) has no such variable.  Timestamps are
milliseconds as `Nat`; `now.saturating_sub` is `Nat` subtraction. -/

/-- Exit classification of the `main_pty` ChildExited arm. -/
def classifyExitPty (last_stop_requested_by : Option String)
    (last_stop_requested_at_ms last_user_interrupt_at_ms now : Nat)
    (exit_code : Int) : String :=
  match last_stop_requested_by with
  | some by1 =>
    if now - last_stop_requested_at_ms ≤ 5000 then
      if by1 = "claude_code" then "claude_requested" else "tool_requested"
    else "crash_or_unknown"
  | none =>
    if now - last_user_interrupt_at_ms ≤ 2000 then "user_requested"
    else if exit_code = 0 then "user_requested"
    else "crash_or_unknown"

/-- Exit classification of the `main_windows_direct` ChildExited arm
(no ETX tracking). -/
def classifyExitWindows (last_stop_requested_by : Option String)
    (last_stop_requested_at_ms now : Nat) (exit_code : Int) : String :=
  match last_stop_requested_by with
  | some by1 =>
    if now - last_stop_requested_at_ms ≤ 5000 then
      if by1 = "claude_code" then "claude_requested" else "tool_requested"
    else "crash_or_unknown"
  | none =>
    if exit_code = 0 then "user_requested" else "crash_or_unknown"

/-- Modelled from the spec: the five-row classification table of §4.F read
top-down (first matching row wins), with the 2-second ETX rule as row 3
independent of whether a stop control was ever recorded.  Used only to
compare the claimed table with the code. -/
def classifyExitSpecTable (last_stop_requested_by : Option String)
    (last_stop_requested_at_ms last_user_interrupt_at_ms now : Nat)
    (exit_code : Int) : String :=
  if last_stop_requested_by = some "claude_code" ∧
      now - last_stop_requested_at_ms ≤ 5000 then "claude_requested"
  else if last_stop_requested_by.isSome ∧
      now - last_stop_requested_at_ms ≤ 5000 then "tool_requested"
  else if now - last_user_interrupt_at_ms ≤ 2000 then "user_requested"
  else if last_stop_requested_by = none ∧ exit_code = 0 then "user_requested"
  else "crash_or_unknown"

/-! ## Admission controller (`concurrency.rs`)

The `AtomicU8` counters are modelled as `Nat` with explicit `% 256` where
the code can wrap (`fetch_add` / `fetch_sub`); all operations happen under
the controller lock in the source, so the state is threaded sequentially.
A delivered oneshot `TaskHandle` is the `Option QTask` component returned
by `tryScheduleNext`. -/

/-- `TOTAL_CONCURRENCY_LIMIT`. -/
def TOTAL_CONCURRENCY_LIMIT : Nat := 6

/-- `TaskType`. -/
inductive TaskType where
  | CC | CX
deriving DecidableEq, Repr

/-- `PendingTask` (the oneshot sender is represented by the admission
output of `tryScheduleNext`). -/
structure QTask where
  id : Nat
  task_type : TaskType
  description : String
  project_path : String
  queued_at : String
deriving DecidableEq, Repr

/-- `TaskHandle` (the `Arc<ConcurrencyController>` back-pointer is the
explicitly threaded state). -/
structure TaskHandleM where
  task_id : Nat
  task_type : TaskType
deriving DecidableEq, Repr

/-- `ConcurrencyController` state. -/
structure CState where
  cc_running : Nat
  cx_running : Nat
  cc_max : Nat
  cx_max : Nat
  task_id_counter : Nat
  queue : List QTask
deriving DecidableEq, Repr

/-- The running counter of a class (`cc_running` / `cx_running`). -/
def counterOf : TaskType → CState → Nat
  | .CC, s => s.cc_running
  | .CX, s => s.cx_running

/-- `ConcurrencyController::new(cc_max, cx_max)` (`u8` arguments). -/
def CState.new (cc_max cx_max : Nat) : CState :=
  { cc_running := 0, cx_running := 0, cc_max := cc_max % 256,
    cx_max := cx_max % 256, task_id_counter := 0, queue := [] }

/-- `total_running`. -/
def totalRunning (s : CState) : Nat := s.cc_running + s.cx_running

/-- `can_start_cc`. -/
def canStartCC (s : CState) : Bool :=
  s.cc_running < s.cc_max && totalRunning s < TOTAL_CONCURRENCY_LIMIT

/-- `can_start_cx`. -/
def canStartCX (s : CState) : Bool :=
  s.cx_running < s.cx_max && totalRunning s < TOTAL_CONCURRENCY_LIMIT

/-- `can_start_*` dispatched on the task type of a queued task. -/
def canStartType (s : CState) : TaskType → Bool
  | .CC => canStartCC s
  | .CX => canStartCX s

/-- `acquire_cc_internal` (`fetch_add(1)` on a `u8`). -/
def acquireCC (s : CState) : CState :=
  { s with cc_running := (s.cc_running + 1) % 256 }

/-- `acquire_cx_internal`. -/
def acquireCX (s : CState) : CState :=
  { s with cx_running := (s.cx_running + 1) % 256 }

/-- `acquire_*_internal` dispatched on a task type. -/
def acquireType (s : CState) : TaskType → CState
  | .CC => acquireCC s
  | .CX => acquireCX s

/-- `release_*_internal`: `fetch_sub(1)` wraps a `u8`; when the previous
value was `0` the counter is immediately stored back to `0`. -/
def relCounter (n : Nat) : Nat :=
  if n = 0 then 0 else (n + 255) % 256

/-- `release_cc_internal` / `release_cx_internal`. -/
def releaseType (s : CState) : TaskType → CState
  | .CC => { s with cc_running := relCounter s.cc_running }
  | .CX => { s with cx_running := relCounter s.cx_running }

/-- `next_task_id` (`fetch_add` returns the previous value). -/
def nextTaskId (s : CState) : Nat × CState :=
  (s.task_id_counter, { s with task_id_counter := s.task_id_counter + 1 })

/-- The scan loop of `try_schedule_next`: walk the queue once, remove and
return the first task whose class currently has capacity (capacity is
evaluated against the fixed pre-admission counters, as in the source,
which breaks out of the loop after the first admission). -/
def scanQueue (s : CState) : List QTask → List QTask × Option QTask
  | [] => ([], none)
  | task :: rest =>
    if canStartType s task.task_type then (rest, some task)
    else
      let r := scanQueue s rest
      (task :: r.1, r.2)

/-- `try_schedule_next`: admit at most one queued task, delivering its
`TaskHandle` through the oneshot (the returned `Option QTask`). -/
def tryScheduleNext (s : CState) : CState × Option QTask :=
  let r := scanQueue s s.queue
  match r.2 with
  | some task => (acquireType { s with queue := r.1 } task.task_type, some task)
  | none => ({ s with queue := r.1 }, none)

/-- `try_acquire_cc`: immediate admission or FIFO enqueue. -/
def tryAcquireCC (s : CState) (description project_path queued_at : String) :
    CState × Option TaskHandleM :=
  if canStartCC s then
    let s1 := acquireCC s
    let r := nextTaskId s1
    (r.2, some { task_id := r.1, task_type := .CC })
  else
    let r := nextTaskId s
    ({ r.2 with queue := r.2.queue ++
       [{ id := r.1, task_type := .CC, description := description,
          project_path := project_path, queued_at := queued_at }] }, none)

/-- `try_acquire_cx`. -/
def tryAcquireCX (s : CState) (description project_path queued_at : String) :
    CState × Option TaskHandleM :=
  if canStartCX s then
    let s1 := acquireCX s
    let r := nextTaskId s1
    (r.2, some { task_id := r.1, task_type := .CX })
  else
    let r := nextTaskId s
    ({ r.2 with queue := r.2.queue ++
       [{ id := r.1, task_type := .CX, description := description,
          project_path := project_path, queued_at := queued_at }] }, none)

/-- `TaskHandle::release`: decrement the class counter, then schedule. -/
def releaseHandle (h : TaskHandleM) (s : CState) : CState × Option QTask :=
  tryScheduleNext (releaseType s h.task_type)

/-- `Drop for TaskHandle`: the drop glue runs the explicitly empty `drop`
body (the comment in the source defers everything to `release`, which
consumes the handle). -/
def dropHandle (_h : TaskHandleM) (s : CState) : CState := s

/-- `cancel_queued`: remove the first queued task with the given id. -/
def cancelQueued (s : CState) (task_id : Nat) : CState × Bool :=
  if s.queue.any (fun t => t.id == task_id) then
    ({ s with queue := s.queue.eraseP (fun t => t.id == task_id) }, true)
  else (s, false)

/-- `set_limits` (`u8` arguments). -/
def setLimits (s : CState) (cc_max cx_max : Nat) : CState :=
  { s with cc_max := cc_max % 256, cx_max := cx_max % 256 }

/-- One public operation on the controller. -/
inductive COp where
  | acqCC (description project_path queued_at : String)
  | acqCX (description project_path queued_at : String)
  | rel (t : TaskType)
  | cancel (id : Nat)
  | limits (cc_max cx_max : Nat)
deriving DecidableEq, Repr

/-- Whether the operation is `set_limits`. -/
def COp.isSetLimits : COp → Bool
  | .limits _ _ => true
  | _ => false

/-- Apply one operation (a `rel` is the release of a held ticket of that
class; the invariants below hold even for arbitrary release sequences). -/
def stepC (s : CState) : COp → CState
  | .acqCC d p q => (tryAcquireCC s d p q).1
  | .acqCX d p q => (tryAcquireCX s d p q).1
  | .rel t => (releaseHandle { task_id := 0, task_type := t } s).1
  | .cancel id => (cancelQueued s id).1
  | .limits c x => setLimits s c x

/-- Run a sequence of operations. -/
def runC (s : CState) (ops : List COp) : CState := ops.foldl stepC s

/-! ## Event dispatcher (`events.rs`)

`EventDispatcher` holds a sequence counter and a bounded history ring
(capacity 1000, `VecDeque` with `pop_front` on overflow).  The broadcast
channel delivery is not modelled; `publish_raw` returns the constructed
event, and queries run over the history list (front = oldest). -/

/-- `HISTORY_CAPACITY`. -/
def HISTORY_CAPACITY : Nat := 1000

/-- `AgentEvent`. -/
structure AgentEvent where
  id : String
  ts : String
  event_type : AgentEventType
  source : AgentSource
  session_id : String
  run_id : String
  seq : Nat
deriving DecidableEq, Repr

/-- The `event_type_str` match inside `EventDispatcher::query`. -/
def eventTypeStr : AgentEventType → String
  | .started _ _ => "agent.started"
  | .stream _ _ _ => "agent.stream"
  | .toolRequest _ => "agent.tool.request"
  | .toolResult _ _ => "agent.tool.result"
  | .completed _ _ _ => "agent.completed"
  | .error _ _ _ => "agent.error"
  | .heartbeat _ => "agent.heartbeat"

/-- `generate_id`: `format!("evt_{:012}", seq)`. -/
def generateId (seq : Nat) : String :=
  let digits := toString seq
  "evt_" ++ String.mk (List.replicate (12 - digits.length) '0') ++ digits

/-- Dispatcher state: the `seq_counter` and the history ring. -/
structure DispState where
  seq_counter : Nat
  history : List AgentEvent
deriving DecidableEq, Repr

/-- `EventDispatcher::new()`. -/
def DispState.new : DispState := { seq_counter := 0, history := [] }

/-- `EventDispatcher::publish`: bounded ring append. -/
def publishEvent (st : DispState) (e : AgentEvent) : DispState :=
  { st with history :=
      (if HISTORY_CAPACITY ≤ st.history.length then st.history.tail
       else st.history) ++ [e] }

/-- The caller-supplied data of one `publish_raw` call (`ts` is the
`chrono::Utc::now().to_rfc3339()` of that call). -/
structure PubInput where
  event_type : AgentEventType
  source : AgentSource
  session_id : String
  run_id : String
  ts : String
deriving DecidableEq, Repr

/-- `publish_raw`: assign the next sequence number, build the event,
publish it, and return it. -/
def publishRaw (st : DispState) (i : PubInput) : DispState × AgentEvent :=
  let seq := st.seq_counter + 1
  let e : AgentEvent :=
    { id := generateId seq, ts := i.ts, event_type := i.event_type,
      source := i.source, session_id := i.session_id, run_id := i.run_id,
      seq := seq }
  (publishEvent { st with seq_counter := seq } e, e)

/-- Run a sequence of `publish_raw` calls, collecting the returned events. -/
def runPublish (st : DispState) :
    List PubInput → DispState × List AgentEvent
  | [] => (st, [])
  | i :: rest =>
    let r := publishRaw st i
    let r2 := runPublish r.1 rest
    (r2.1, r.2 :: r2.2)

/-- `EventQuery`. -/
structure EventQuery where
  session_id : Option String := none
  run_id : Option String := none
  after_seq : Option Nat := none
  limit : Option Nat := none
  types : Option (List String) := none

/-- The filter predicate of `EventDispatcher::query`. -/
def matchesQuery (q : EventQuery) (e : AgentEvent) : Bool :=
  (match q.session_id with
   | some sid => e.session_id == sid
   | none => true) &&
  (match q.run_id with
   | some rid => e.run_id == rid
   | none => true) &&
  (match q.after_seq with
   | some after => after < e.seq
   | none => true) &&
  (match q.types with
   | some types => types.any (fun t => t == eventTypeStr e.event_type)
   | none => true)

/-- `EventDispatcher::query`: filter the history, then take at most
`limit.unwrap_or(100).min(500)` events. -/
def queryEvents (history : List AgentEvent) (q : EventQuery) :
    List AgentEvent :=
  (history.filter (matchesQuery q)).take (min (q.limit.getD 100) 500)

/-! ## Lemmas about the object-map primitives -/

theorem objLookup_insert_self (o : List (String × JVal)) (k : String)
    (v : JVal) : objLookup (objInsert o k v) k = some v := by
  induction o with
  | nil => simp [objInsert, objLookup]
  | cons p rest ih =>
    by_cases h : p.1 = k
    · simp [objInsert, objLookup, h]
    · simp [objInsert, objLookup, h, ih]

theorem objLookup_insert_ne (o : List (String × JVal)) (k k1 : String)
    (v : JVal) (h : k1 ≠ k) :
    objLookup (objInsert o k1 v) k = objLookup o k := by
  induction o with
  | nil => simp [objInsert, objLookup, h]
  | cons p rest ih =>
    by_cases h1 : p.1 = k1
    · simp [objInsert, objLookup, h1, h]
    · simp [objInsert, objLookup, h1, ih]

theorem objInsert_of_lookup_eq (o : List (String × JVal)) (k : String)
    (v : JVal) (h : objLookup o k = some v) : objInsert o k v = o := by
  induction o with
  | nil => simp [objLookup] at h
  | cons p rest ih =>
    by_cases h1 : p.1 = k
    · simp [objLookup, h1] at h
      simp [objInsert, h1, h]
      exact (Prod.ext h1 h).symm
    · simp [objLookup, h1] at h
      simp [objInsert, h1, ih h]

theorem objLookup_mergeObj_not_mem (o p : List (String × JVal)) (k : String)
    (h : k ∉ p.map Prod.fst) :
    objLookup (mergeObj o p) k = objLookup o k := by
  induction p generalizing o with
  | nil => rfl
  | cons q rest ih =>
    have h1 : ¬ q.1 = k := fun he => h (by simp [he])
    have h2 : k ∉ rest.map Prod.fst := fun hm => h (by simp [hm])
    rw [mergeObj, ih _ h2, objLookup_insert_ne _ _ _ _ h1]

theorem objLookup_mergeObj_mem (o p : List (String × JVal)) (k : String)
    (v : JVal) (hnd : (p.map Prod.fst).Nodup) (h : (k, v) ∈ p) :
    objLookup (mergeObj o p) k = some v := by
  induction p generalizing o with
  | nil => simp at h
  | cons q rest ih =>
    rw [List.map_cons, List.nodup_cons] at hnd
    rcases List.mem_cons.mp h with h1 | h1
    · subst h1
      rw [mergeObj, objLookup_mergeObj_not_mem _ _ _ hnd.1,
        objLookup_insert_self]
    · rw [mergeObj]
      exact ih _ hnd.2 h1

theorem objLookup_mergeObj_isSome (o p : List (String × JVal)) (k : String)
    (h : (objLookup o k).isSome) :
    (objLookup (mergeObj o p) k).isSome := by
  induction p generalizing o with
  | nil => exact h
  | cons q rest ih =>
    rw [mergeObj]
    refine ih _ ?_
    by_cases h1 : q.1 = k
    · subst h1; rw [objLookup_insert_self]; rfl
    · rwa [objLookup_insert_ne _ _ _ _ h1]

theorem mergeObj_of_lookup (o p : List (String × JVal))
    (h : ∀ kv ∈ p, objLookup o kv.1 = some kv.2) : mergeObj o p = o := by
  induction p with
  | nil => rfl
  | cons q rest ih =>
    rw [mergeObj, objInsert_of_lookup_eq _ _ _ (h q (by simp))]
    exact ih fun kv hkv => h kv (by simp [hkv])

theorem eraseKey_insert_self (o : List (String × JVal)) (k : String)
    (v : JVal) : eraseKey (objInsert o k v) k = eraseKey o k := by
  induction o with
  | nil => simp [objInsert, eraseKey]
  | cons p rest ih =>
    by_cases h : p.1 = k
    · simp [objInsert, eraseKey, h]
    · simp [objInsert, eraseKey, h, ih]

theorem eraseKey_insert_ne (o : List (String × JVal)) (k k1 : String)
    (v : JVal) (h : k1 ≠ k) :
    eraseKey (objInsert o k1 v) k = objInsert (eraseKey o k) k1 v := by
  induction o with
  | nil => simp [objInsert, eraseKey, h]
  | cons p rest ih =>
    by_cases h1 : p.1 = k1
    · have h2 : ¬ p.1 = k := by rw [h1]; exact h
      simp [objInsert, eraseKey, h1, h2, h]
    · by_cases h2 : p.1 = k
      · simp [objInsert, eraseKey, h1, h2, ih, h, Ne.symm h]
      · simp [objInsert, eraseKey, h1, h2, ih, h]

theorem eraseKey_mergeObj (o p : List (String × JVal)) (u : String) :
    eraseKey (mergeObj o p) u =
      mergeObj (eraseKey o u) (eraseKey p u) := by
  induction p generalizing o with
  | nil => rfl
  | cons q rest ih =>
    by_cases h : q.1 = u
    · rw [mergeObj, ih, h, eraseKey_insert_self]
      simp [eraseKey, h]
    · rw [mergeObj, ih, eraseKey_insert_ne _ _ _ _ h]
      simp only [eraseKey, if_neg h]
      rw [mergeObj]

theorem objLookup_entryOr_ne (o : List (String × JVal)) (k k1 : String)
    (v : JVal) (h : k1 ≠ k) :
    objLookup (entryOr o k1 v) k = objLookup o k := by
  unfold entryOr
  cases objLookup o k1 with
  | some w => rfl
  | none =>
    induction o with
    | nil => simp [objLookup, h]
    | cons p rest ih =>
      by_cases h1 : p.1 = k
      · simp [objLookup, h1]
      · simp [objLookup, h1] at *
        exact ih

theorem objLookup_entryOr_isSome (o : List (String × JVal)) (k : String)
    (v : JVal) : (objLookup (entryOr o k v) k).isSome := by
  unfold entryOr
  cases h : objLookup o k with
  | some w => simp [h]
  | none =>
    induction o with
    | nil => simp [objLookup]
    | cons p rest ih =>
      by_cases h1 : p.1 = k
      · simp [objLookup, h1]
      · simp [objLookup, h1] at *
        exact ih h

theorem entryOr_of_isSome (o : List (String × JVal)) (k : String) (v : JVal)
    (h : (objLookup o k).isSome) : entryOr o k v = o := by
  unfold entryOr
  cases h1 : objLookup o k with
  | some w => rfl
  | none => rw [h1] at h; simp at h

theorem objLookup_entryOr_mem (o : List (String × JVal)) (k : String)
    (v w : JVal) (h : objLookup o k = some w) :
    objLookup (entryOr o k v) k = some w := by
  rw [entryOr_of_isSome _ _ _ (by simp [h])]
  exact h

theorem objLookup_eraseKey_ne (o : List (String × JVal)) (k u : String)
    (h : k ≠ u) : objLookup (eraseKey o u) k = objLookup o k := by
  induction o with
  | nil => rfl
  | cons p rest ih =>
    by_cases h1 : p.1 = u
    · have h2 : ¬ p.1 = k := by rw [h1]; exact fun hk => h hk.symm
      simp [eraseKey, objLookup, h1, h2, ih, Ne.symm h]
    · simp [eraseKey, objLookup, h1, ih]

theorem eraseKey_append (o1 o2 : List (String × JVal)) (u : String) :
    eraseKey (o1 ++ o2) u = eraseKey o1 u ++ eraseKey o2 u := by
  induction o1 with
  | nil => rfl
  | cons p rest ih =>
    by_cases h : p.1 = u
    · simp [eraseKey, h, ih]
    · simp [eraseKey, h, ih]

theorem eraseKey_entryOr_ne (o : List (String × JVal)) (k u : String)
    (v : JVal) (h : k ≠ u) :
    eraseKey (entryOr o k v) u = entryOr (eraseKey o u) k v := by
  unfold entryOr
  rw [objLookup_eraseKey_ne _ _ _ h]
  cases objLookup o k with
  | some w => rfl
  | none => simp [eraseKey_append, eraseKey, h]

theorem objLookup_entryOr_of_some (o : List (String × JVal)) (k1 k : String)
    (v w : JVal) (h : objLookup o k = some w) :
    objLookup (entryOr o k1 v) k = some w := by
  by_cases hk : k1 = k
  · subst hk; exact objLookup_entryOr_mem o k1 v w h
  · rw [objLookup_entryOr_ne _ _ _ _ hk]; exact h

theorem eraseKey_keys_sublist (p : List (String × JVal)) (u : String) :
    ((eraseKey p u).map Prod.fst).Sublist (p.map Prod.fst) := by
  induction p with
  | nil => simp [eraseKey]
  | cons q rest ih =>
    by_cases h : q.1 = u
    · simp only [eraseKey, if_pos h, List.map_cons]
      exact ih.cons _
    · simp only [eraseKey, if_neg h, List.map_cons]
      exact ih.cons₂ _


theorem getSessionsObj_save (df sess1 : List (String × JVal)) (t : String) :
    getSessionsObj (saveNormalize (setSessions (.obj df) sess1) t) = some sess1 := by
  simp only [setSessions, saveNormalize]
  have h1 : objLookup (objInsert (objInsert (objInsert df "sessions" (.obj sess1))
      "schema_version" (.num 1)) "updated_at" (.str t)) "sessions"
      = some (.obj sess1) := by
    rw [objLookup_insert_ne _ _ _ _ (by decide),
        objLookup_insert_ne _ _ _ _ (by decide), objLookup_insert_self]
  simp [getSessionsObj, jget, entryOr, h1]

theorem upsert_session_record_eq (project_root session_id : String)
    (patch : JVal) (tc tu ts : String) (doc : JVal)
    (sess : List (String × JVal))
    (hprj : trimEmpty project_root = false)
    (hsid : trimEmpty session_id = false)
    (hs : getSessionsObj doc = some sess) :
    upsert_session_record project_root session_id patch tc tu ts doc =
      .ok (saveNormalize (setSessions doc (objInsert sess session_id
        (upsertRec sess session_id patch tc tu))) ts) := by
  unfold upsert_session_record
  rw [if_neg (by simp [hprj, hsid]), hs]

theorem mergeObj_idem (o p : List (String × JVal))
    (hnd : (p.map Prod.fst).Nodup) :
    mergeObj (mergeObj o p) p = mergeObj o p := by
  induction p generalizing o with
  | nil => rfl
  | cons q rest ih =>
    obtain ⟨k, v⟩ := q
    rw [List.map_cons, List.nodup_cons] at hnd
    simp only [mergeObj]
    rw [objInsert_of_lookup_eq _ _ _
      (by rw [objLookup_mergeObj_not_mem _ _ _ hnd.1, objLookup_insert_self])]
    exact ih _ hnd.2

theorem recFields_erase_idem (f0 p : List (String × JVal)) (tu1 tu2 : String)
    (hnd : (p.map Prod.fst).Nodup) :
    eraseKey (entryOr (objInsert (mergeObj
        (entryOr (objInsert (mergeObj f0 p) "updated_at" (.str tu1))
          "kind" (.str "terminal")) p)
        "updated_at" (.str tu2)) "kind" (.str "terminal")) "updated_at"
      = eraseKey (entryOr (objInsert (mergeObj f0 p) "updated_at" (.str tu1))
          "kind" (.str "terminal")) "updated_at" := by
  have hknd : ("kind" : String) ≠ "updated_at" := by decide
  have hq : ((eraseKey p "updated_at").map Prod.fst).Nodup :=
    (eraseKey_keys_sublist p "updated_at").nodup hnd
  rw [eraseKey_entryOr_ne _ _ _ _ hknd, eraseKey_insert_self, eraseKey_mergeObj,
      eraseKey_entryOr_ne _ _ _ _ hknd, eraseKey_insert_self, eraseKey_mergeObj]
  have hmerge : mergeObj (entryOr (mergeObj (eraseKey f0 "updated_at")
      (eraseKey p "updated_at")) "kind" (.str "terminal"))
      (eraseKey p "updated_at")
      = entryOr (mergeObj (eraseKey f0 "updated_at") (eraseKey p "updated_at"))
          "kind" (.str "terminal") := by
    apply mergeObj_of_lookup
    intro kv hkv
    obtain ⟨k, v⟩ := kv
    exact objLookup_entryOr_of_some _ _ _ _ _
      (objLookup_mergeObj_mem _ _ _ _ hq hkv)
  rw [hmerge]
  exact entryOr_of_isSome _ _ _ (objLookup_entryOr_isSome _ "kind" _)


/-- C8 (amended): for every project_root and session_id that are not
blank (the guard in the source returns without writing otherwise), every
serde patch object (unique keys) and every document whose record for the
session is absent or an object, `upsert_session_record` merges the patch
fields into the record (creating it with `created_at` when absent) and
sets `updated_at`; applying the same upsert twice yields the same stored
record as applying it once except for the `updated_at` field; and all
other sessions in the document are unchanged. -/
theorem upsert_merge_idempotent_frame
    (project_root session_id : String) (p : List (String × JVal))
    (tc1 tu1 ts1 tc2 tu2 ts2 : String) (doc : JVal)
    (sess : List (String × JVal))
    (hprj : trimEmpty project_root = false)
    (hsid : trimEmpty session_id = false)
    (hs : getSessionsObj doc = some sess)
    (hnd : (p.map Prod.fst).Nodup)
    (hrec : objLookup sess session_id = none ∨
      ∃ f0, objLookup sess session_id = some (.obj f0)) :
    ∃ doc1 sess1,
      upsert_session_record project_root session_id (.obj p) tc1 tu1 ts1 doc
        = .ok doc1 ∧
      getSessionsObj doc1 = some sess1 ∧
      eraseKey sess1 session_id = eraseKey sess session_id ∧
      (∃ f1, objLookup sess1 session_id = some (.obj f1) ∧
        objLookup f1 "updated_at" = some (.str tu1) ∧
        (∀ kv ∈ p, kv.1 ≠ "updated_at" → objLookup f1 kv.1 = some kv.2) ∧
        (objLookup sess session_id = none →
          (objLookup f1 "created_at").isSome ∧
          ("created_at" ∉ p.map Prod.fst →
            objLookup f1 "created_at" = some (.str tc1)))) ∧
      ∃ doc2 sess2,
        upsert_session_record project_root session_id (.obj p) tc2 tu2 ts2 doc1
          = .ok doc2 ∧
        getSessionsObj doc2 = some sess2 ∧
        ∃ f1 f2, objLookup sess1 session_id = some (.obj f1) ∧
          objLookup sess2 session_id = some (.obj f2) ∧
          eraseKey f2 "updated_at" = eraseKey f1 "updated_at" := by
  obtain ⟨df, rfl⟩ : ∃ df, doc = JVal.obj df := by
    cases doc <;> first | exact ⟨_, rfl⟩ | simp [getSessionsObj, jget] at hs
  obtain ⟨f0, hrec1, hcreated⟩ :
      ∃ f0, upsertRec sess session_id (.obj p) tc1 tu1 =
        .obj (entryOr (objInsert (mergeObj f0 p) "updated_at" (.str tu1))
          "kind" (.str "terminal")) ∧
        (objLookup sess session_id = none →
          objLookup f0 "created_at" = some (.str tc1)) := by
    rcases hrec with hnone | ⟨f0, hsome⟩
    · exact ⟨[("session_id", .str session_id), ("created_at", .str tc1)],
        by simp [upsertRec, hnone, mergeFields], fun _ => rfl⟩
    · exact ⟨f0, by simp [upsertRec, hsome, mergeFields],
        fun hc => by rw [hc] at hsome; cases hsome⟩
  have h1 := upsert_session_record_eq project_root session_id (.obj p)
    tc1 tu1 ts1 (.obj df) sess hprj hsid hs
  rw [hrec1] at h1
  have hget1 := getSessionsObj_save df
    (objInsert sess session_id (.obj (entryOr (objInsert (mergeObj f0 p)
      "updated_at" (.str tu1)) "kind" (.str "terminal")))) ts1
  refine ⟨_, _, h1, hget1, eraseKey_insert_self _ _ _, ?_, ?_⟩
  · refine ⟨_, objLookup_insert_self _ _ _, ?_, ?_, ?_⟩
    · rw [objLookup_entryOr_ne _ _ _ _ (by decide),
        objLookup_insert_self]
    · intro kv hkv hne
      obtain ⟨k, v⟩ := kv
      refine objLookup_entryOr_of_some _ _ _ _ _ ?_
      rw [objLookup_insert_ne _ _ _ _ (Ne.symm hne)]
      exact objLookup_mergeObj_mem _ _ _ _ hnd hkv
    · intro habs
      have hc := hcreated habs
      constructor
      · have h3 : (objLookup (mergeObj f0 p) "created_at").isSome :=
          objLookup_mergeObj_isSome _ _ _ (by simp [hc])
        obtain ⟨w, hw⟩ := Option.isSome_iff_exists.mp h3
        have h4 : objLookup (objInsert (mergeObj f0 p) "updated_at"
            (.str tu1)) "created_at" = some w := by
          rw [objLookup_insert_ne _ _ _ _ (by decide)]; exact hw
        simp [objLookup_entryOr_of_some _ _ _ _ _ h4]
      · intro hnotin
        have h5 : objLookup (mergeObj f0 p) "created_at" = some (.str tc1) := by
          rw [objLookup_mergeObj_not_mem _ _ _ hnotin]; exact hc
        refine objLookup_entryOr_of_some _ _ _ _ _ ?_
        rw [objLookup_insert_ne _ _ _ _ (by decide)]; exact h5
  · have hlook1 : objLookup (objInsert sess session_id
        (.obj (entryOr (objInsert (mergeObj f0 p) "updated_at" (.str tu1))
          "kind" (.str "terminal")))) session_id
        = some (.obj (entryOr (objInsert (mergeObj f0 p) "updated_at"
            (.str tu1)) "kind" (.str "terminal"))) :=
      objLookup_insert_self _ _ _
    have hrec2 : upsertRec (objInsert sess session_id
        (.obj (entryOr (objInsert (mergeObj f0 p) "updated_at" (.str tu1))
          "kind" (.str "terminal")))) session_id (.obj p) tc2 tu2
        = .obj (entryOr (objInsert (mergeObj
            (entryOr (objInsert (mergeObj f0 p) "updated_at" (.str tu1))
              "kind" (.str "terminal")) p) "updated_at" (.str tu2))
            "kind" (.str "terminal")) := by
      simp [upsertRec, hlook1, mergeFields]
    have h2 := upsert_session_record_eq project_root session_id (.obj p)
      tc2 tu2 ts2 _ _ hprj hsid hget1
    rw [hrec2] at h2
    obtain ⟨df1, hdf1⟩ : ∃ df1, saveNormalize (setSessions (JVal.obj df)
        (objInsert sess session_id (.obj (entryOr (objInsert (mergeObj f0 p)
          "updated_at" (.str tu1)) "kind" (.str "terminal"))))) ts1
        = JVal.obj df1 := ⟨_, rfl⟩
    rw [hdf1] at h2 ⊢
    refine ⟨_, _, h2, getSessionsObj_save df1 _ ts2, _, _,
      objLookup_insert_self _ _ _, objLookup_insert_self _ _ _, ?_⟩
    exact recFields_erase_idem f0 p tu1 tu2 hnd


theorem reconcileScan_eq (alive : Int → Bool) (t : String)
    (sess : List (String × JVal)) :
    reconcileScan alive t sess =
      (sess.map (fun q => if staleB alive q.2 then (q.1, patchStale t q.2)
         else q),
       (sess.filter (fun q => staleB alive q.2)).map Prod.fst) := by
  induction sess with
  | nil => rfl
  | cons q rest ih =>
    by_cases h : staleB alive q.2 <;> simp [reconcileScan, h, ih]

theorem patchStale_state (t : String) (f : List (String × JVal)) :
    jgetStr (patchStale t (.obj f)) "state" = some "exited" := by
  simp only [patchStale, jgetStr, jget]
  rw [objLookup_insert_ne _ _ _ _ (by decide),
      objLookup_insert_ne _ _ _ _ (by decide),
      objLookup_insert_ne _ _ _ _ (by decide),
      objLookup_insert_self]
  rfl

theorem patchStale_reason (t : String) (f : List (String × JVal)) :
    jgetStr (patchStale t (.obj f)) "last_exit_reason" = some "stale_pid" := by
  simp only [patchStale, jgetStr, jget]
  rw [objLookup_insert_ne _ _ _ _ (by decide),
      objLookup_insert_ne _ _ _ _ (by decide),
      objLookup_insert_self]
  rfl

theorem patchStale_exit_code (t : String) (f : List (String × JVal)) :
    jgetIsNull (patchStale t (.obj f)) "exit_code" = true := by
  simp only [patchStale, jgetIsNull, jget]
  rw [objLookup_insert_ne _ _ _ _ (by decide), objLookup_insert_self]

theorem staleB_obj (alive : Int → Bool) (rec : JVal)
    (h : staleB alive rec = true) : ∃ f, rec = .obj f := by
  cases rec <;> simp_all [staleB, jgetStr, jgetI64, jget]

theorem staleB_patchStale (alive : Int → Bool) (t : String) (rec : JVal)
    (h : staleB alive rec = true) :
    staleB alive (patchStale t rec) = false := by
  obtain ⟨f, rfl⟩ := staleB_obj alive rec h
  simp [staleB, patchStale_state]

theorem alookup_supRemoveIds_mem {α : Type} (ids : List String)
    (sup : List (String × α)) (k : String) (h : k ∈ ids) :
    alookup (supRemoveIds ids sup) k = none := by
  induction sup with
  | nil => rfl
  | cons e rest ih =>
    by_cases hc : e.1 ∈ ids
    · simpa [supRemoveIds, List.filter, hc] using ih
    · have hne : ¬ e.1 = k := fun he => hc (he ▸ h)
      simpa [supRemoveIds, List.filter, hc, alookup, hne] using ih


theorem supRemoveIds_nil {α : Type} (sup : List (String × α)) :
    supRemoveIds [] sup = sup := by
  induction sup with
  | nil => rfl
  | cons e rest ih => simpa [supRemoveIds, List.filter] using ih

/-- C7: after `reconcile_stale_sessions` returns successfully, no record
in the document has state `"running"` together with a positive pid whose
OS process is dead; every record that was in that situation has been
patched to `state = "exited"`, `last_exit_reason = "stale_pid"`,
`exit_code = null`, and its session id has been removed from the
supervisor in-memory map; all other records are left unchanged (the new
session list is the pointwise patch of the old one). -/
theorem reconcile_stale_result (alive : Int → Bool) (t tSave : String)
    (doc : JVal) (sup : List (String × SupervisorSession))
    (sess : List (String × JVal)) (hs : getSessionsObj doc = some sess) :
    ∃ doc1 sup1 changed sess1,
      reconcile_stale_sessions alive t tSave doc sup
        = .ok (doc1, sup1, changed) ∧
      getSessionsObj doc1 = some sess1 ∧
      sess1 = sess.map (fun q => if staleB alive q.2 then
        (q.1, patchStale t q.2) else q) ∧
      sess1.all (fun q => !staleB alive q.2) = true ∧
      (sess.filter (fun q => staleB alive q.2)).all (fun q =>
        decide (jgetStr (patchStale t q.2) "state" = some "exited") &&
        decide (jgetStr (patchStale t q.2) "last_exit_reason"
          = some "stale_pid") &&
        jgetIsNull (patchStale t q.2) "exit_code") = true ∧
      sup1 = supRemoveIds
        ((sess.filter (fun q => staleB alive q.2)).map Prod.fst) sup ∧
      (sess.filter (fun q => staleB alive q.2)).all
        (fun q => (alookup sup1 q.1).isNone) = true := by
  obtain ⟨df, rfl⟩ : ∃ df, doc = JVal.obj df := by
    cases doc <;> first | exact ⟨_, rfl⟩ | simp [getSessionsObj, jget] at hs
  have hpatch : (sess.filter (fun q => staleB alive q.2)).all (fun q =>
      decide (jgetStr (patchStale t q.2) "state" = some "exited") &&
      decide (jgetStr (patchStale t q.2) "last_exit_reason"
        = some "stale_pid") &&
      jgetIsNull (patchStale t q.2) "exit_code") = true := by
    rw [List.all_eq_true]
    intro q hq
    have hst : staleB alive q.2 = true := by
      have := List.mem_filter.mp hq
      simpa using this.2
    obtain ⟨f, hf⟩ := staleB_obj alive q.2 hst
    rw [hf]
    simp [patchStale_state, patchStale_reason, patchStale_exit_code]
  by_cases hemp : sess.filter (fun q => staleB alive q.2) = []
  · refine ⟨JVal.obj df, sup, false, sess, ?_, hs, ?_, ?_, ?_, ?_, ?_⟩
    · simp [reconcile_stale_sessions, hs, reconcileScan_eq, hemp]
    · have hno : ∀ q ∈ sess, staleB alive q.2 = false := by
        intro q hq
        by_contra hc
        have : q ∈ sess.filter (fun q => staleB alive q.2) :=
          List.mem_filter.mpr ⟨hq, by simpa using hc⟩
        simp [hemp] at this
      calc sess = sess.map id := by simp
        _ = _ := by
          refine List.map_congr_left ?_ |>.symm
          intro q hq
          simp [hno q hq]
    · rw [List.all_eq_true]
      intro q hq
      by_contra hc
      have : q ∈ sess.filter (fun q => staleB alive q.2) :=
        List.mem_filter.mpr ⟨hq, by simpa using hc⟩
      simp [hemp] at this
    · exact hpatch
    · rw [hemp]
      simp [supRemoveIds_nil]
    · rw [hemp]; rfl
  · have hids : ((sess.filter (fun q => staleB alive q.2)).map Prod.fst)
        ≠ [] := by
      simpa using hemp
    refine ⟨saveNormalize (setSessions (JVal.obj df)
        (sess.map (fun q => if staleB alive q.2 then (q.1, patchStale t q.2)
          else q))) tSave,
      supRemoveIds ((sess.filter (fun q => staleB alive q.2)).map
        Prod.fst) sup, true,
      sess.map (fun q => if staleB alive q.2 then (q.1, patchStale t q.2)
        else q), ?_, getSessionsObj_save df _ tSave, rfl, ?_, hpatch, rfl, ?_⟩
    · simp only [reconcile_stale_sessions, hs, reconcileScan_eq]
      simp [List.isEmpty_iff, hids]
    · rw [List.all_eq_true]
      intro q hq
      obtain ⟨q0, hq0, hodd⟩ := List.mem_map.mp hq
      by_cases hstale : staleB alive q0.2
      · rw [if_pos hstale] at hodd
        subst hodd
        simp [staleB_patchStale alive t q0.2 hstale]
      · rw [if_neg hstale] at hodd
        subst hodd
        simp [hstale]
    · rw [List.all_eq_true]
      intro q hq
      have hmem : q.1 ∈ (sess.filter (fun q => staleB alive q.2)).map
          Prod.fst := List.mem_map.mpr ⟨q, hq, rfl⟩
      simp [alookup_supRemoveIds_mem _ sup q.1 hmem]


theorem supTakePending_fst (m : SupMap) (sid : String) :
    (supTakePending m sid).1 = supPeekPending m sid := by
  induction m with
  | nil => rfl
  | cons e rest ih =>
    by_cases h : e.1 = sid <;>
      simp [supTakePending, supPeekPending, alookup, h] at *
    · exact ih

theorem alookup_supUpdate_self (m : SupMap) (sid : String)
    (f : SupervisorSession → SupervisorSession) :
    alookup (supUpdate m sid f) sid = some (f (getSup m sid)) := by
  induction m with
  | nil => simp [supUpdate, alookup, getSup]
  | cons e rest ih =>
    by_cases h : e.1 = sid <;>
      simp [supUpdate, alookup, getSup, h] at *
    · exact ih

theorem alookup_supTakePending_self (m : SupMap) (sid : String) :
    alookup (supTakePending m sid).2 sid =
      (alookup m sid).map (fun s => { s with pending := none }) := by
  induction m with
  | nil => rfl
  | cons e rest ih =>
    by_cases h : e.1 = sid <;>
      simp [supTakePending, alookup, h] at *
    · exact ih

theorem supIncRetry_fst (m : SupMap) (sid : String) :
    (supIncRetry m sid).1 = (getSup m sid).retry_count + 1 := by
  induction m with
  | nil => simp [supIncRetry, getSup, alookup]
  | cons e rest ih =>
    by_cases h : e.1 = sid <;>
      simp [supIncRetry, getSup, alookup, h] at *
    · exact ih

theorem alookup_supIncRetry_self (m : SupMap) (sid : String) :
    alookup (supIncRetry m sid).2 sid =
      some { getSup m sid with
        retry_count := (getSup m sid).retry_count + 1 } := by
  induction m with
  | nil => simp [supIncRetry, getSup, alookup]
  | cons e rest ih =>
    by_cases h : e.1 = sid <;>
      simp [supIncRetry, getSup, alookup, h] at *
    · exact ih


theorem getSup_supUpdate_self (m : SupMap) (sid : String)
    (f : SupervisorSession → SupervisorSession) :
    getSup (supUpdate m sid f) sid = f (getSup m sid) := by
  simp [getSup, alookup_supUpdate_self]

/-- C10: when the ingested payload has no string `session_id` field or an
empty one, `handle_ingest_event` returns without modifying the supervisor
map, without upserting `sessions.json`, and without broadcasting any
event, whatever the event type is. -/
theorem ingest_empty_session_noop (ctx : IngestCtx) (payload : JVal)
    (sup : SupMap) (h : (jgetStr payload "session_id").getD "" = "") :
    handleIngestEvent ctx payload sup = (sup, [], []) := by
  simp [handleIngestEvent, h]

/-- C5: ingesting a `codex.turn_complete` event upserts exactly one patch
carrying the last assistant message, the thread/turn ids and
`state = "running"`; when a PendingRequest exists it is taken (pending
becomes `none`, retry counter reset to 0) and exactly one
`codex.managed.turn_complete` event carrying the PendingRequest request
id, requested_by and created_at_ms is broadcast; when no PendingRequest
exists nothing is broadcast. -/
theorem turn_complete_step (ctx : IngestCtx) (payload : JVal) (sup : SupMap)
    (sid : String)
    (htype : (jgetStr payload "type").getD "" = "codex.turn_complete")
    (hsid : (jgetStr payload "session_id").getD "" = sid)
    (hne : ¬ sid = "") :
    (handleIngestEvent ctx payload sup).2.1 =
      [((jgetStr payload "project_root").getD "", sid,
        JVal.obj [("message",
            .str ((jgetStr payload "last_assistant_message").getD "")),
          ("thread_id", optStr (jgetStr payload "thread_id")),
          ("turn_id", optStr (jgetStr payload "turn_id")),
          ("state", .str "running")])] ∧
    (∀ pr, supPeekPending sup sid = some pr →
      (getSup (handleIngestEvent ctx payload sup).1 sid).pending = none ∧
      (getSup (handleIngestEvent ctx payload sup).1 sid).retry_count = 0 ∧
      ∃ b, (handleIngestEvent ctx payload sup).2.2 =
        [("codex.managed.turn_complete", b)] ∧
        jget b "request_id" = some (.str pr.id) ∧
        jget b "requested_by" = some (.str pr.requested_by) ∧
        jget b "created_at_ms" = some (.num pr.created_at_ms)) ∧
    (supPeekPending sup sid = none →
      (handleIngestEvent ctx payload sup).2.2 = []) := by
  rcases htake : supTakePending sup sid with ⟨taken, sup1⟩
  have hfst := supTakePending_fst sup sid
  rw [htake] at hfst
  simp only at hfst
  cases taken with
  | some pr =>
    have hstep : handleIngestEvent ctx payload sup =
      (supResetRetry sup1 sid,
       [((jgetStr payload "project_root").getD "", sid,
         JVal.obj [("message",
             .str ((jgetStr payload "last_assistant_message").getD "")),
           ("thread_id", optStr (jgetStr payload "thread_id")),
           ("turn_id", optStr (jgetStr payload "turn_id")),
           ("state", .str "running")])],
       [("codex.managed.turn_complete",
         JVal.obj [("type", .str "codex.managed.turn_complete"),
           ("ts", .str ctx.ts), ("session_id", .str sid),
           ("request_id", .str pr.id),
           ("requested_by", .str pr.requested_by),
           ("created_at_ms", .num pr.created_at_ms),
           ("thread_id", (jget payload "thread_id").getD .null),
           ("turn_id", (jget payload "turn_id").getD .null),
           ("cwd", (jget payload "cwd").getD .null),
           ("input_messages", (jget payload "input_messages").getD .null),
           ("last_assistant_message",
             (jget payload "last_assistant_message").getD .null)])]) := by
      simp [handleIngestEvent, hsid, htype, hne, htake]
    refine ⟨by rw [hstep], ?_, ?_⟩
    · intro pr1 hpk
      rw [← hfst] at hpk
      cases hpk
      obtain ⟨s, hl, hp⟩ : ∃ s, alookup sup sid = some s ∧
          s.pending = some pr := by
        have h2 := hfst.symm
        unfold supPeekPending at h2
        cases hl : alookup sup sid with
        | none => rw [hl] at h2; simp at h2
        | some s =>
          rw [hl] at h2
          simp at h2
          exact ⟨s, rfl, h2⟩
      have hsup1 : alookup sup1 sid = some { s with pending := none } := by
        have h3 := alookup_supTakePending_self sup sid
        rw [htake] at h3
        simp only at h3
        rw [h3, hl]
        rfl
      have hg : getSup (supResetRetry sup1 sid) sid =
          { getSup sup1 sid with retry_count := 0 } :=
        getSup_supUpdate_self sup1 sid _
      rw [hstep]
      simp only
      refine ⟨?_, ?_, ?_⟩
      · rw [hg]
        simp [getSup, hsup1]
      · rw [hg]
      · exact ⟨_, rfl, rfl, rfl, rfl⟩
    · intro hpk
      rw [← hfst] at hpk
      cases hpk
  | none =>
    have hstep : handleIngestEvent ctx payload sup =
      (sup1,
       [((jgetStr payload "project_root").getD "", sid,
         JVal.obj [("message",
             .str ((jgetStr payload "last_assistant_message").getD "")),
           ("thread_id", optStr (jgetStr payload "thread_id")),
           ("turn_id", optStr (jgetStr payload "turn_id")),
           ("state", .str "running")])], []) := by
      simp [handleIngestEvent, hsid, htype, hne, htake]
    refine ⟨by rw [hstep], ?_, ?_⟩
    · intro pr1 hpk
      rw [← hfst] at hpk
      cases hpk
    · intro hpk
      rw [hstep]


theorem getSup_supTakePending_retry (m : SupMap) (sid : String) :
    (getSup (supTakePending m sid).2 sid).retry_count =
      (getSup m sid).retry_count := by
  simp only [getSup, alookup_supTakePending_self]
  cases alookup m sid <;> simp

theorem session_exited_step (ctx : IngestCtx) (payload : JVal) (sup : SupMap)
    (sid : String) (pr : PendingRequest)
    (htype : (jgetStr payload "type").getD "" = "codex.session.exited")
    (hsid : (jgetStr payload "session_id").getD "" = sid)
    (hne : ¬ sid = "")
    (hpend : supPeekPending sup sid = some pr)
    (hcrash : should_auto_retry
      ((jgetStr payload "exit_reason").getD "unknown") = true) :
    (getSup (handleIngestEvent ctx payload sup).1 sid).retry_count =
      (getSup sup sid).retry_count + 1 ∧
    supPeekPending (handleIngestEvent ctx payload sup).1 sid = some pr ∧
    ((getSup sup sid).retry_count + 1 ≤ 3 →
      ∃ b1 b2, (handleIngestEvent ctx payload sup).2.2 =
        [("codex.control", b1), ("codex.retry_scheduled", b2)] ∧
        jget b1 "action" = some (.str "retry") ∧
        jget b1 "request_id" = some (.str pr.id) ∧
        jget b1 "text" = some (.str pr.prompt) ∧
        jget b2 "request_id" = some (.str pr.id) ∧
        jget b2 "attempt" =
          some (.num ((getSup sup sid).retry_count + 1))) ∧
    (3 < (getSup sup sid).retry_count + 1 →
      (handleIngestEvent ctx payload sup).2.2 = []) := by
  rcases hinc : supIncRetry sup sid with ⟨retry_n, sup1⟩
  have hn := supIncRetry_fst sup sid
  rw [hinc] at hn
  simp only at hn
  have hs1 := alookup_supIncRetry_self sup sid
  rw [hinc] at hs1
  simp only at hs1
  have hgs1 : getSup sup1 sid = { getSup sup sid with
      retry_count := (getSup sup sid).retry_count + 1 } := by
    simp [getSup, hs1]
  have hpk1 : supPeekPending sup1 sid = some pr := by
    unfold supPeekPending at hpend ⊢
    rw [hs1]
    cases hl : alookup sup sid with
    | none => rw [hl] at hpend; simp at hpend
    | some s =>
      rw [hl] at hpend
      simp at hpend
      simp [getSup, hl, hpend]
  subst hn
  by_cases hle : (getSup sup sid).retry_count + 1 ≤ 3
  · have hstep : handleIngestEvent ctx payload sup =
      (sup1,
       [((jgetStr payload "project_root").getD "", sid,
         JVal.obj [("state", .str "exited"),
           ("exit_code", optNum (jgetI64 payload "exit_code")),
           ("last_exit_reason",
             .str ((jgetStr payload "exit_reason").getD "unknown"))])],
       [("codex.control",
         JVal.obj [("type", .str "codex.control"), ("ts", .str ctx.ts),
           ("project_root", .str ((jgetStr payload "project_root").getD "")),
           ("session_id", .str sid), ("action", .str "retry"),
           ("requested_by", .str "tool"), ("request_id", .str pr.id),
           ("text", .str pr.prompt)]),
        ("codex.retry_scheduled",
         JVal.obj [("type", .str "codex.retry_scheduled"),
           ("ts", .str ctx.ts), ("session_id", .str sid),
           ("request_id", .str pr.id),
           ("attempt", .num ((getSup sup sid).retry_count + 1))])]) := by
      simp [handleIngestEvent, hsid, htype, hne, hpend, hcrash, hinc,
        AUTO_RETRY_MAX, hle]
    rw [hstep]
    exact ⟨by rw [hgs1], hpk1,
      fun _ => ⟨_, _, rfl, rfl, rfl, rfl, rfl, rfl⟩,
      fun hgt => absurd hle (by omega)⟩
  · have hstep : handleIngestEvent ctx payload sup =
      (sup1,
       [((jgetStr payload "project_root").getD "", sid,
         JVal.obj [("state", .str "exited"),
           ("exit_code", optNum (jgetI64 payload "exit_code")),
           ("last_exit_reason",
             .str ((jgetStr payload "exit_reason").getD "unknown"))])],
       []) := by
      simp [handleIngestEvent, hsid, htype, hne, hpend, hcrash, hinc,
        AUTO_RETRY_MAX, hle]
    rw [hstep]
    exact ⟨by rw [hgs1], hpk1, fun h => absurd h hle, fun _ => rfl⟩


theorem step_retry_budget (ctx : IngestCtx) (payload : JVal) (sup : SupMap)
    (sid : String)
    (hsid : (jgetStr payload "session_id").getD "" = sid)
    (hnt : ¬ (jgetStr payload "type").getD "" = "codex.turn_complete") :
    countRetryCtl (handleIngestEvent ctx payload sup).2.2 +
      min (getSup sup sid).retry_count 3 ≤
      min (getSup (handleIngestEvent ctx payload sup).1 sid).retry_count 3 := by
  by_cases hz : sid = ""
  · simp [handleIngestEvent, hsid, hz, countRetryCtl]
  by_cases h1 : (jgetStr payload "type").getD "" = "codex.session.started"
  · simp [handleIngestEvent, hsid, hz, h1, countRetryCtl,
      getSup_supUpdate_self] <;> split <;> simp
  by_cases h2 : (jgetStr payload "type").getD "" = "codex.session.exited"
  · cases hpk : supPeekPending sup sid with
    | none =>
      simp [handleIngestEvent, hsid, hz, h1, h2, hpk, countRetryCtl]
    | some pending =>
      by_cases hcr : should_auto_retry
          ((jgetStr payload "exit_reason").getD "unknown")
      · rcases hinc : supIncRetry sup sid with ⟨retry_n, sup1⟩
        have hn := supIncRetry_fst sup sid
        rw [hinc] at hn
        simp only at hn
        subst hn
        have hs1 := alookup_supIncRetry_self sup sid
        rw [hinc] at hs1
        simp only at hs1
        have hgs1 : (getSup sup1 sid).retry_count =
            (getSup sup sid).retry_count + 1 := by
          simp [getSup, hs1]
        by_cases hle : (getSup sup sid).retry_count + 1 ≤ AUTO_RETRY_MAX
        · have hle2 : (getSup sup sid).retry_count ≤ 2 := by
            simp [AUTO_RETRY_MAX] at hle; omega
          simp [handleIngestEvent, hsid, hz, h1, h2, hpk, hcr, hinc, hle2,
            countRetryCtl, hgs1, AUTO_RETRY_MAX] <;> omega
        · have hle2 : ¬ (getSup sup sid).retry_count ≤ 2 := by
            simp [AUTO_RETRY_MAX] at hle; omega
          simp [handleIngestEvent, hsid, hz, h1, h2, hpk, hcr, hinc, hle2,
            countRetryCtl, hgs1, AUTO_RETRY_MAX] <;> omega
      · simp [handleIngestEvent, hsid, hz, h1, h2, hpk, hcr, countRetryCtl]
  by_cases h4 : (jgetStr payload "type").getD "" = "codex.control.error"
  · cases hpk : supPeekPending sup sid with
    | none =>
      simp [handleIngestEvent, hsid, hz, h1, h2, hnt, h4, hpk, countRetryCtl]
    | some pending =>
      by_cases hreq : (jgetStr payload "request_id").getD "" = "" ∨
          pending.id = (jgetStr payload "request_id").getD ""
      · simp [handleIngestEvent, hsid, hz, h1, h2, hnt, h4, hpk, hreq,
          countRetryCtl, getSup_supTakePending_retry]
      · simp [handleIngestEvent, hsid, hz, h1, h2, hnt, h4, hpk, hreq,
          countRetryCtl]
  by_cases h5 : (jgetStr payload "type").getD "" = "codex.control"
  · by_cases ha1 : (jgetStr payload "action").getD "" = "send_input"
    · by_cases htxt : trimEmpty ((jgetStr payload "text").getD "") = true
      · simp [handleIngestEvent, hsid, hz, h1, h2, hnt, h4, h5, ha1, htxt,
          countRetryCtl]
      · simp only [Bool.not_eq_true] at htxt
        simp [handleIngestEvent, hsid, hz, h1, h2, hnt, h4, h5, ha1, htxt,
          countRetryCtl, getSup_supUpdate_self] <;> split <;> simp
    · by_cases hor : (jgetStr payload "action").getD "" = "pause" ∨
          (jgetStr payload "action").getD "" = "kill" ∨
          (jgetStr payload "action").getD "" = "restart" ∨
          (jgetStr payload "action").getD "" = "retry"
      · simp [handleIngestEvent, hsid, hz, h1, h2, hnt, h4, h5, ha1, hor,
          countRetryCtl, getSup_supUpdate_self]
      · simp [handleIngestEvent, hsid, hz, h1, h2, hnt, h4, h5, ha1, hor,
          countRetryCtl]
  · simp [handleIngestEvent, hsid, hz, h1, h2, hnt, h4, h5, countRetryCtl]


theorem countRetryCtl_append (a b : List (String × JVal)) :
    countRetryCtl (a ++ b) = countRetryCtl a + countRetryCtl b := by
  simp [countRetryCtl]

theorem run_retry_budget (ctx : IngestCtx) (trace : List JVal) (sup : SupMap)
    (sid : String)
    (h : ∀ p ∈ trace, (jgetStr p "session_id").getD "" = sid ∧
      ¬ (jgetStr p "type").getD "" = "codex.turn_complete") :
    countRetryCtl (runIngest ctx sup trace).2 +
      min (getSup sup sid).retry_count 3 ≤ 3 := by
  induction trace generalizing sup with
  | nil =>
    simp [runIngest, countRetryCtl]
  | cons p rest ih =>
    have hp := h p (by simp)
    have hstep := step_retry_budget ctx p sup sid hp.1 hp.2
    have hrest := ih (handleIngestEvent ctx p sup).1
      (fun q hq => h q (by simp [hq]))
    simp only [runIngest]
    rw [countRetryCtl_append]
    omega

/-- C1: when a `codex.session.exited` event with a crash-class exit reason
is ingested for a session holding a PendingRequest, the supervisor
increments that session retry counter; if the new counter is at most 3 it
broadcasts exactly one `codex.control{action="retry"}` carrying the pending
request id and prompt together with one `codex.retry_scheduled{attempt}`
note, and if the counter exceeds 3 it broadcasts neither; in both cases the
PendingRequest stays in place.  Moreover, over any trace of ingested events
for that session containing no `codex.turn_complete` (the only event whose
handling resets the counter, by taking the pending), at most
`3 - min retry_count 3 ≤ 3` retry controls are ever broadcast. -/
theorem supervisor_retry_policy
    (ctx : IngestCtx) (payload : JVal) (sup : SupMap) (sid : String)
    (pr : PendingRequest) (trace : List JVal)
    (htype : (jgetStr payload "type").getD "" = "codex.session.exited")
    (hsid : (jgetStr payload "session_id").getD "" = sid)
    (hne : ¬ sid = "")
    (hpend : supPeekPending sup sid = some pr)
    (hcrash : should_auto_retry
      ((jgetStr payload "exit_reason").getD "unknown") = true)
    (htrace : ∀ p ∈ trace, (jgetStr p "session_id").getD "" = sid ∧
      ¬ (jgetStr p "type").getD "" = "codex.turn_complete") :
    (getSup (handleIngestEvent ctx payload sup).1 sid).retry_count =
      (getSup sup sid).retry_count + 1 ∧
    supPeekPending (handleIngestEvent ctx payload sup).1 sid = some pr ∧
    ((getSup sup sid).retry_count + 1 ≤ 3 →
      ∃ b1 b2, (handleIngestEvent ctx payload sup).2.2 =
        [("codex.control", b1), ("codex.retry_scheduled", b2)] ∧
        jget b1 "action" = some (.str "retry") ∧
        jget b1 "request_id" = some (.str pr.id) ∧
        jget b1 "text" = some (.str pr.prompt) ∧
        jget b2 "request_id" = some (.str pr.id) ∧
        jget b2 "attempt" =
          some (.num ((getSup sup sid).retry_count + 1))) ∧
    (3 < (getSup sup sid).retry_count + 1 →
      (handleIngestEvent ctx payload sup).2.2 = []) ∧
    countRetryCtl (runIngest ctx sup trace).2 +
      min (getSup sup sid).retry_count 3 ≤ 3 := by
  obtain ⟨a, b, c, d⟩ :=
    session_exited_step ctx payload sup sid pr htype hsid hne hpend hcrash
  exact ⟨a, b, c, d, run_retry_budget ctx trace sup sid htrace⟩


theorem relCounter_le (n : Nat) : relCounter n ≤ n := by
  unfold relCounter
  split
  · omega
  · omega

theorem scanQueue_snd (s : CState) (q : List QTask) :
    (scanQueue s q).2 = q.find? (fun t => canStartType s t.task_type) := by
  induction q with
  | nil => rfl
  | cons t rest ih =>
    by_cases h : canStartType s t.task_type <;>
      simp [scanQueue, List.find?_cons, h, ih]

theorem scanQueue_fst (s : CState) (q : List QTask) :
    (scanQueue s q).1 = q.eraseP (fun t => canStartType s t.task_type) := by
  induction q with
  | nil => rfl
  | cons t rest ih =>
    by_cases h : canStartType s t.task_type <;>
      simp [scanQueue, List.eraseP_cons, h, ih]

theorem tryScheduleNext_total (s : CState) (h : totalRunning s ≤ 6) :
    totalRunning (tryScheduleNext s).1 ≤ 6 := by
  have hq := scanQueue_snd s s.queue
  rcases hscan : scanQueue s s.queue with ⟨q1, adm⟩
  rw [hscan] at hq
  simp only [tryScheduleNext, hscan]
  cases adm with
  | none => simpa [totalRunning] using h
  | some task =>
    have hq2 : List.find? (fun t => canStartType s t.task_type) s.queue
        = some task := hq.symm
    have hcan0 := List.find?_some hq2
    obtain ⟨tid, tt, td, tp, tq⟩ := task
    have hcan : canStartType s tt = true := by
      simpa using hcan0
    cases tt with
    | CC =>
      simp [canStartType, canStartCC, totalRunning,
        TOTAL_CONCURRENCY_LIMIT] at hcan
      simp [acquireType, acquireCC, totalRunning]
      omega
    | CX =>
      simp [canStartType, canStartCX, totalRunning,
        TOTAL_CONCURRENCY_LIMIT] at hcan
      simp [acquireType, acquireCX, totalRunning]
      omega

theorem stepC_total (s : CState) (op : COp) (h : totalRunning s ≤ 6) :
    totalRunning (stepC s op) ≤ 6 := by
  cases op with
  | acqCC d p q =>
    by_cases hc : canStartCC s
    · have hc2 := hc
      simp [canStartCC, totalRunning, TOTAL_CONCURRENCY_LIMIT] at hc2
      simp [stepC, tryAcquireCC, hc, nextTaskId, acquireCC, totalRunning]
      omega
    · simpa [stepC, tryAcquireCC, hc, nextTaskId, totalRunning] using h
  | acqCX d p q =>
    by_cases hc : canStartCX s
    · have hc2 := hc
      simp [canStartCX, totalRunning, TOTAL_CONCURRENCY_LIMIT] at hc2
      simp [stepC, tryAcquireCX, hc, nextTaskId, acquireCX, totalRunning]
      omega
    · simpa [stepC, tryAcquireCX, hc, nextTaskId, totalRunning] using h
  | rel t =>
    show totalRunning (tryScheduleNext (releaseType s t)).1 ≤ 6
    apply tryScheduleNext_total
    have h1 := relCounter_le s.cc_running
    have h2 := relCounter_le s.cx_running
    cases t <;> simp [releaseType, totalRunning] at * <;> omega
  | cancel id =>
    simp only [stepC, cancelQueued]
    split <;> simpa [totalRunning] using h
  | limits c x =>
    simpa [stepC, setLimits, totalRunning] using h

theorem runC_total (s : CState) (ops : List COp) (h : totalRunning s ≤ 6) :
    totalRunning (runC s ops) ≤ 6 := by
  induction ops generalizing s with
  | nil => exact h
  | cons op rest ih => exact ih _ (stepC_total s op h)


theorem relCounter_eq_sub (n : Nat) (h : n ≤ 255) : relCounter n = n - 1 := by
  unfold relCounter
  split
  · omega
  · omega

theorem tryScheduleNext_class (s : CState)
    (h : s.cc_running ≤ s.cc_max ∧ s.cx_running ≤ s.cx_max ∧
      s.cc_max ≤ 255 ∧ s.cx_max ≤ 255) :
    (tryScheduleNext s).1.cc_running ≤ (tryScheduleNext s).1.cc_max ∧
    (tryScheduleNext s).1.cx_running ≤ (tryScheduleNext s).1.cx_max ∧
    (tryScheduleNext s).1.cc_max ≤ 255 ∧
    (tryScheduleNext s).1.cx_max ≤ 255 := by
  have hq := scanQueue_snd s s.queue
  rcases hscan : scanQueue s s.queue with ⟨q1, adm⟩
  rw [hscan] at hq
  simp only [tryScheduleNext, hscan]
  cases adm with
  | none => simpa using h
  | some task =>
    have hq2 : List.find? (fun t => canStartType s t.task_type) s.queue
        = some task := hq.symm
    have hcan0 := List.find?_some hq2
    obtain ⟨tid, tt, td, tp, tq⟩ := task
    have hcan : canStartType s tt = true := by
      simpa using hcan0
    cases tt with
    | CC =>
      simp [canStartType, canStartCC, totalRunning,
        TOTAL_CONCURRENCY_LIMIT] at hcan
      simp [acquireType, acquireCC]
      omega
    | CX =>
      simp [canStartType, canStartCX, totalRunning,
        TOTAL_CONCURRENCY_LIMIT] at hcan
      simp [acquireType, acquireCX]
      omega

theorem stepC_class (s : CState) (op : COp)
    (hop : op.isSetLimits = false)
    (h : s.cc_running ≤ s.cc_max ∧ s.cx_running ≤ s.cx_max ∧
      s.cc_max ≤ 255 ∧ s.cx_max ≤ 255) :
    (stepC s op).cc_running ≤ (stepC s op).cc_max ∧
    (stepC s op).cx_running ≤ (stepC s op).cx_max ∧
    (stepC s op).cc_max ≤ 255 ∧ (stepC s op).cx_max ≤ 255 := by
  cases op with
  | acqCC d p q =>
    by_cases hc : canStartCC s
    · have hc2 := hc
      simp [canStartCC, totalRunning, TOTAL_CONCURRENCY_LIMIT] at hc2
      simp [stepC, tryAcquireCC, hc, nextTaskId, acquireCC]
      omega
    · simpa [stepC, tryAcquireCC, hc, nextTaskId] using h
  | acqCX d p q =>
    by_cases hc : canStartCX s
    · have hc2 := hc
      simp [canStartCX, totalRunning, TOTAL_CONCURRENCY_LIMIT] at hc2
      simp [stepC, tryAcquireCX, hc, nextTaskId, acquireCX]
      omega
    · simpa [stepC, tryAcquireCX, hc, nextTaskId] using h
  | rel t =>
    show (tryScheduleNext (releaseType s t)).1.cc_running ≤
        (tryScheduleNext (releaseType s t)).1.cc_max ∧
      (tryScheduleNext (releaseType s t)).1.cx_running ≤
        (tryScheduleNext (releaseType s t)).1.cx_max ∧
      (tryScheduleNext (releaseType s t)).1.cc_max ≤ 255 ∧
      (tryScheduleNext (releaseType s t)).1.cx_max ≤ 255
    apply tryScheduleNext_class
    have h1 := relCounter_le s.cc_running
    have h2 := relCounter_le s.cx_running
    cases t <;> simp [releaseType] <;> omega
  | cancel id =>
    simp only [stepC, cancelQueued]
    split <;> simpa using h
  | limits c x =>
    simp [COp.isSetLimits] at hop

theorem runC_class (s : CState) (ops : List COp)
    (hops : ∀ op ∈ ops, op.isSetLimits = false)
    (h : s.cc_running ≤ s.cc_max ∧ s.cx_running ≤ s.cx_max ∧
      s.cc_max ≤ 255 ∧ s.cx_max ≤ 255) :
    (runC s ops).cc_running ≤ (runC s ops).cc_max ∧
    (runC s ops).cx_running ≤ (runC s ops).cx_max ∧
    (runC s ops).cc_max ≤ 255 ∧ (runC s ops).cx_max ≤ 255 := by
  induction ops generalizing s with
  | nil => exact h
  | cons op rest ih =>
    exact ih _ (fun o ho => hops o (by simp [ho]))
      (stepC_class s op (hops op (by simp)) h)


/-- C2 (amended): in every state of the admission controller reachable by
try_acquire, ticket release, cancel_queued and set_limits operations,
`cc_running + cx_running ≤ global_cap (6)` and the counters are naturals
(no underflow: release saturates at zero); and for operation sequences that
contain no `set_limits`, additionally `cc_running ≤ limit(C)` and
`cx_running ≤ limit(X)`.  The original per-class bound fails under
`set_limits` (see the counterexample): lowering a limit below the current
running count is allowed and leaves already-issued tickets in place. -/
theorem admission_counter_safety (cc_max cx_max : Nat) (ops : List COp) :
    totalRunning (runC (CState.new cc_max cx_max) ops) ≤
      TOTAL_CONCURRENCY_LIMIT ∧
    ((∀ op ∈ ops, op.isSetLimits = false) →
      (runC (CState.new cc_max cx_max) ops).cc_running ≤
        (runC (CState.new cc_max cx_max) ops).cc_max ∧
      (runC (CState.new cc_max cx_max) ops).cx_running ≤
        (runC (CState.new cc_max cx_max) ops).cx_max) := by
  constructor
  · exact runC_total _ ops (by simp [CState.new, totalRunning])
  · intro hops
    have hinit : (CState.new cc_max cx_max).cc_running ≤
        (CState.new cc_max cx_max).cc_max ∧
        (CState.new cc_max cx_max).cx_running ≤
          (CState.new cc_max cx_max).cx_max ∧
        (CState.new cc_max cx_max).cc_max ≤ 255 ∧
        (CState.new cc_max cx_max).cx_max ≤ 255 := by
      refine ⟨by simp [CState.new], by simp [CState.new], ?_, ?_⟩
      · simp only [CState.new]
        omega
      · simp only [CState.new]
        omega
    have h := runC_class (CState.new cc_max cx_max) ops hops hinit
    exact ⟨h.1, h.2.1⟩

theorem admission_counter_safety_witness :
    totalRunning (runC (CState.new 3 5)
      [COp.acqCC "t" "p" "q", COp.rel TaskType.CC]) ≤
      TOTAL_CONCURRENCY_LIMIT ∧
    (runC (CState.new 3 5)
      [COp.acqCC "t" "p" "q", COp.rel TaskType.CC]).cc_running ≤
      (runC (CState.new 3 5)
        [COp.acqCC "t" "p" "q", COp.rel TaskType.CC]).cc_max ∧
    (runC (CState.new 3 5)
      [COp.acqCC "t" "p" "q", COp.rel TaskType.CC]).cx_running ≤
      (runC (CState.new 3 5)
        [COp.acqCC "t" "p" "q", COp.rel TaskType.CC]).cx_max := by
  have h := admission_counter_safety 3 5
    [COp.acqCC "t" "p" "q", COp.rel TaskType.CC]
  exact ⟨h.1, h.2 (by decide)⟩

/-- C2 counterexample: after `try_acquire(C)` on a fresh controller with
limits (3, 5) followed by `set_limits(0, 0)`, the reachable state has
`cc_running = 1 > 0 = limit(C)`, refuting the claimed invariant
`cc_running ≤ limit(C)` as stated. -/
theorem admission_limits_counterexample :
    (runC (CState.new 3 5) [COp.acqCC "t" "p" "q", COp.limits 0 0]).cc_max <
      (runC (CState.new 3 5)
        [COp.acqCC "t" "p" "q", COp.limits 0 0]).cc_running := by
  decide

theorem tryScheduleNext_snd (s : CState) :
    (tryScheduleNext s).2 =
      s.queue.find? (fun t => canStartType s t.task_type) := by
  have hq := scanQueue_snd s s.queue
  rcases hscan : scanQueue s s.queue with ⟨q1, adm⟩
  rw [hscan] at hq
  simp only [tryScheduleNext, hscan]
  cases adm with
  | none => simpa using hq
  | some task => simpa using hq

theorem tryScheduleNext_queue (s : CState) :
    (tryScheduleNext s).1.queue =
      s.queue.eraseP (fun t => canStartType s t.task_type) := by
  have hq1 := scanQueue_fst s s.queue
  rcases hscan : scanQueue s s.queue with ⟨q1, adm⟩
  rw [hscan] at hq1
  simp only [tryScheduleNext, hscan]
  cases adm with
  | none => simpa using hq1
  | some task =>
    obtain ⟨tid, tt, td, tp, tq⟩ := task
    cases tt <;> simp [acquireType, acquireCC, acquireCX] <;>
      simpa using hq1

/-- C3 (amended): explicitly releasing an admitted Ticket decrements its
class running counter (saturating at zero, never panicking: the `u8`
wrap of `fetch_sub` at zero is immediately stored back to 0), and then
exactly one head-to-tail scan of the wait queue admits (delivers a ticket
to) the first queued task whose class currently has capacity — the
admitted task is `find?` of the eligibility predicate and the new queue is
`eraseP` of it, so at most one task is admitted per release.  Dropping a
Ticket without calling release, however, leaves the controller state
completely unchanged (`Drop for TaskHandle` is explicitly empty). -/
theorem ticket_release_semantics (s : CState) (hdl : TaskHandleM)
    (hcc : s.cc_running ≤ 255) (hcx : s.cx_running ≤ 255) :
    dropHandle hdl s = s ∧
    counterOf hdl.task_type (releaseType s hdl.task_type) =
      counterOf hdl.task_type s - 1 ∧
    (releaseHandle hdl s).2 =
      (releaseType s hdl.task_type).queue.find?
        (fun t => canStartType (releaseType s hdl.task_type) t.task_type) ∧
    (releaseHandle hdl s).1.queue =
      (releaseType s hdl.task_type).queue.eraseP
        (fun t => canStartType (releaseType s hdl.task_type) t.task_type) := by
  refine ⟨rfl, ?_, ?_, ?_⟩
  · cases htt : hdl.task_type <;>
      simp [counterOf, releaseType, relCounter_eq_sub, hcc, hcx]
  · exact tryScheduleNext_snd (releaseType s hdl.task_type)
  · exact tryScheduleNext_queue (releaseType s hdl.task_type)

theorem ticket_release_semantics_witness :
    dropHandle { task_id := 0, task_type := TaskType.CC }
        (runC (CState.new 1 1) [COp.acqCC "a" "b" "c", COp.acqCX "d" "e" "f",
          COp.acqCC "g" "h" "i"]) =
      runC (CState.new 1 1) [COp.acqCC "a" "b" "c", COp.acqCX "d" "e" "f",
        COp.acqCC "g" "h" "i"] ∧
    counterOf TaskType.CC (releaseType (runC (CState.new 1 1)
        [COp.acqCC "a" "b" "c", COp.acqCX "d" "e" "f",
          COp.acqCC "g" "h" "i"]) TaskType.CC) =
      counterOf TaskType.CC (runC (CState.new 1 1)
        [COp.acqCC "a" "b" "c", COp.acqCX "d" "e" "f",
          COp.acqCC "g" "h" "i"]) - 1 := by
  have h := ticket_release_semantics (runC (CState.new 1 1)
    [COp.acqCC "a" "b" "c", COp.acqCX "d" "e" "f", COp.acqCC "g" "h" "i"])
    { task_id := 0, task_type := TaskType.CC } (by decide) (by decide)
  exact ⟨h.1, h.2.1⟩

/-- C3 counterexample: after acquiring a C ticket (`cc_running = 1`),
dropping the ticket handle leaves the state unchanged with
`cc_running = 1`; the claimed decrement on drop does not happen. -/
theorem ticket_drop_counterexample :
    dropHandle { task_id := 0, task_type := TaskType.CC }
        (runC (CState.new 3 5) [COp.acqCC "t" "p" "q"]) =
      runC (CState.new 3 5) [COp.acqCC "t" "p" "q"] ∧
    (runC (CState.new 3 5) [COp.acqCC "t" "p" "q"]).cc_running = 1 :=
  ⟨rfl, by decide⟩


/-- C4 (amended): the PTY relay classifies a current-generation child exit
by: a stop control recorded within 5 s yields `claude_requested` when
`requested_by == "claude_code"` and `tool_requested` otherwise; a recorded
but stale stop (older than 5 s) yields `crash_or_unknown` regardless of
exit code, even if an ETX arrived within 2 s; when no stop was ever
recorded, an ETX within 2 s yields `user_requested`, otherwise exit code 0
yields `user_requested` and any other exit code yields `crash_or_unknown`
(the relay never emits `completed`).  This agrees with the spec's five-row
table on every input except the stale-stop-with-fresh-ETX region, where
the table says `user_requested` and the code `crash_or_unknown`; and the
Windows-direct classification (which tracks no ETX) agrees with the PTY
one whenever no ETX arrived within the last 2 s. -/
theorem relay_exit_classification (stopBy : Option String)
    (stopAt uiAt now : Nat) (code : Int) :
    (∀ b, stopBy = some b → now - stopAt ≤ 5000 → b = "claude_code" →
      classifyExitPty stopBy stopAt uiAt now code = "claude_requested") ∧
    (∀ b, stopBy = some b → now - stopAt ≤ 5000 → b ≠ "claude_code" →
      classifyExitPty stopBy stopAt uiAt now code = "tool_requested") ∧
    (∀ b, stopBy = some b → 5000 < now - stopAt →
      classifyExitPty stopBy stopAt uiAt now code = "crash_or_unknown") ∧
    (stopBy = none → now - uiAt ≤ 2000 →
      classifyExitPty stopBy stopAt uiAt now code = "user_requested") ∧
    (stopBy = none → 2000 < now - uiAt → code = 0 →
      classifyExitPty stopBy stopAt uiAt now code = "user_requested") ∧
    (stopBy = none → 2000 < now - uiAt → code ≠ 0 →
      classifyExitPty stopBy stopAt uiAt now code = "crash_or_unknown") ∧
    (classifyExitPty stopBy stopAt uiAt now code =
       classifyExitSpecTable stopBy stopAt uiAt now code ∨
     ((∃ b, stopBy = some b) ∧ 5000 < now - stopAt ∧ now - uiAt ≤ 2000 ∧
      classifyExitPty stopBy stopAt uiAt now code = "crash_or_unknown" ∧
      classifyExitSpecTable stopBy stopAt uiAt now code
        = "user_requested")) ∧
    (2000 < now - uiAt →
      classifyExitWindows stopBy stopAt now code =
        classifyExitPty stopBy stopAt uiAt now code) := by
  refine ⟨?_, ?_, ?_, ?_, ?_, ?_, ?_, ?_⟩
  · rintro b rfl h1 rfl
    simp [classifyExitPty, h1]
  · rintro b rfl h1 hb
    simp [classifyExitPty, h1, hb]
  · rintro b rfl h1
    have h1' : ¬ now - stopAt ≤ 5000 := by omega
    simp [classifyExitPty, h1']
  · rintro rfl h1
    simp [classifyExitPty, h1]
  · rintro rfl h1 h2
    have h1' : ¬ now - uiAt ≤ 2000 := by omega
    simp [classifyExitPty, h1', h2]
  · rintro rfl h1 h2
    have h1' : ¬ now - uiAt ≤ 2000 := by omega
    simp [classifyExitPty, h1', h2]
  · cases stopBy with
    | none =>
      left
      by_cases h1 : now - uiAt ≤ 2000 <;> by_cases h2 : code = 0 <;>
        simp [classifyExitPty, classifyExitSpecTable, h1, h2]
    | some b =>
      by_cases h1 : now - stopAt ≤ 5000
      · left
        by_cases hb : b = "claude_code" <;>
          simp [classifyExitPty, classifyExitSpecTable, h1, hb]
      · by_cases h3 : now - uiAt ≤ 2000
        · right
          refine ⟨⟨b, rfl⟩, by omega, h3, ?_, ?_⟩
          · simp [classifyExitPty, h1]
          · simp [classifyExitSpecTable, h1, h3]
        · left
          simp [classifyExitPty, classifyExitSpecTable, h1, h3]
  · intro h
    cases stopBy with
    | none =>
      have h1 : ¬ now - uiAt ≤ 2000 := by omega
      simp [classifyExitWindows, classifyExitPty, h1]
    | some b => rfl

theorem relay_exit_classification_witness :
    classifyExitPty (some "claude_code") 9000 0 10000 7
      = "claude_requested" ∧
    classifyExitPty (some "tool") 9000 0 10000 7 = "tool_requested" ∧
    classifyExitPty (some "supervisor") 0 9000 10000 0
      = "crash_or_unknown" ∧
    classifyExitPty none 0 9500 10000 (-1) = "user_requested" ∧
    classifyExitPty none 0 0 10000 0 = "user_requested" ∧
    classifyExitPty none 0 0 10000 3 = "crash_or_unknown" ∧
    classifyExitWindows none 0 9000 1 = classifyExitPty none 0 0 9000 1 :=
  ⟨(relay_exit_classification (some "claude_code") 9000 0 10000 7).1
      "claude_code" rfl (by decide) rfl,
   (relay_exit_classification (some "tool") 9000 0 10000 7).2.1
      "tool" rfl (by decide) (by decide),
   (relay_exit_classification (some "supervisor") 0 9000 10000 0).2.2.1
      "supervisor" rfl (by decide),
   (relay_exit_classification none 0 9500 10000 (-1)).2.2.2.1 rfl
      (by decide),
   (relay_exit_classification none 0 0 10000 0).2.2.2.2.1 rfl (by decide)
      rfl,
   (relay_exit_classification none 0 0 10000 3).2.2.2.2.2.1 rfl (by decide)
      (by decide),
   (relay_exit_classification none 0 0 9000 1).2.2.2.2.2.2.2 (by decide)⟩

/-- C4 counterexample: with a stop control recorded 10 s ago by
"supervisor", an ETX 1 s ago, and exit code 1, the PTY relay code yields
`crash_or_unknown` while the claimed five-row table (ETX row third,
unconditional) yields `user_requested`. -/
theorem relay_exit_claim_counterexample :
    classifyExitPty (some "supervisor") 0 9000 10000 1
      = "crash_or_unknown" ∧
    classifyExitSpecTable (some "supervisor") 0 9000 10000 1
      = "user_requested" := by
  constructor <;> decide

/-- C9: every `POST /ingest` request is answered `202 Accepted` with body
`ok`, whatever the body parses to, and the first item published to the SSE
broadcaster is the raw body framed as an event named by the body type
field, falling back to `codex.stream` when the body has no parseable
type. -/
theorem ingest_always_accepted (parsed : Option JVal) (body : String)
    (ctx : IngestCtx) (sup : SupMap) :
    (handle_ingest parsed body ctx sup).1.status = "HTTP/1.1 202 Accepted" ∧
    (handle_ingest parsed body ctx sup).1.respBody = "ok" ∧
    (handle_ingest parsed body ctx sup).1.broadcasts.head? =
      some (.raw (sseFrame
        ((parsed.bind (fun v => jgetStr v "type")).getD "codex.stream")
        body)) := by
  cases parsed <;> simp [handle_ingest]


theorem runPublish_seqs (st : DispState) (inputs : List PubInput) :
    (runPublish st inputs).2.map (fun e => e.seq) =
      List.range' (st.seq_counter + 1) inputs.length := by
  induction inputs generalizing st with
  | nil => rfl
  | cons i rest ih =>
    simp [runPublish, publishRaw, publishEvent, List.range', ih]

theorem publishRaw_hist (st : DispState) (i : PubInput)
    (hchain : List.Chain' (fun a b => a.seq < b.seq) st.history)
    (hle : ∀ e ∈ st.history, e.seq ≤ st.seq_counter) :
    List.Chain' (fun a b => a.seq < b.seq) (publishRaw st i).1.history ∧
    ∀ e ∈ (publishRaw st i).1.history,
      e.seq ≤ (publishRaw st i).1.seq_counter := by
  simp only [publishRaw, publishEvent]
  set base := if HISTORY_CAPACITY ≤ st.history.length then st.history.tail
    else st.history with hbase
  have hbsub : base ⊆ st.history := by
    rw [hbase]
    split
    · exact List.tail_subset _
    · exact fun x hx => hx
  have hbchain : List.Chain' (fun a b => a.seq < b.seq) base := by
    rw [hbase]
    split
    · exact hchain.tail
    · exact hchain
  constructor
  · rw [List.chain'_append]
    refine ⟨hbchain, List.chain'_singleton _, ?_⟩
    intro x hx y hy
    simp at hy
    subst hy
    have hxm : x ∈ base := by
      obtain ⟨h2, hxeq⟩ := List.mem_getLast?_eq_getLast hx
      rw [hxeq]
      exact List.getLast_mem h2
    have := hle x (hbsub hxm)
    simp
    omega
  · intro e he
    rcases List.mem_append.mp he with h1 | h1
    · have := hle e (hbsub h1)
      simp
      omega
    · simp at h1
      simp [h1]

theorem runPublish_hist (st : DispState) (inputs : List PubInput)
    (hchain : List.Chain' (fun a b => a.seq < b.seq) st.history)
    (hle : ∀ e ∈ st.history, e.seq ≤ st.seq_counter) :
    List.Chain' (fun a b => a.seq < b.seq)
      (runPublish st inputs).1.history := by
  induction inputs generalizing st with
  | nil => exact hchain
  | cons i rest ih =>
    have h := publishRaw_hist st i hchain hle
    exact ih (publishRaw st i).1 h.1 h.2

theorem queryEvents_spec (hist : List AgentEvent) (q : EventQuery)
    (hchain : List.Chain' (fun a b => a.seq < b.seq) hist) :
    (queryEvents hist q).all
      (fun e => decide (e ∈ hist) && matchesQuery q e) = true ∧
    List.Chain' (fun a b => a.seq < b.seq) (queryEvents hist q) ∧
    (queryEvents hist q).length ≤ min (q.limit.getD 100) 500 := by
  have hsub : queryEvents hist q ⊆ hist := fun e he => by
    have h1 : e ∈ hist.filter (matchesQuery q) :=
      List.take_subset _ _ he
    exact (List.mem_filter.mp h1).1
  refine ⟨?_, ?_, ?_⟩
  · rw [List.all_eq_true]
    intro e he
    have h1 : e ∈ hist.filter (matchesQuery q) :=
      List.take_subset _ _ he
    have h2 := List.mem_filter.mp h1
    simp [h2.1, h2.2]
  · have hsl : (queryEvents hist q).Sublist hist :=
      ((List.take_sublist _ _).trans (List.filter_sublist _))
    haveI : IsTrans AgentEvent (fun a b => a.seq < b.seq) :=
      ⟨fun a b c h1 h2 => Nat.lt_trans h1 h2⟩
    exact hchain.sublist hsl
  · exact List.length_take_le _ _

/-- C6: every `publish_raw` on a fresh dispatcher assigns strictly
increasing sequence numbers — the i-th publish returns seq i, starting at
1 (`List.range' 1 n`) — and every query result contains only buffered
events matching all supplied filters, is ordered by strictly increasing
sequence number, and has length at most the requested limit capped at 500
(default 100). -/
theorem dispatcher_seq_query (inputs : List PubInput) (q : EventQuery) :
    ((runPublish DispState.new inputs).2.map (fun e => e.seq) =
      List.range' 1 inputs.length) ∧
    ((queryEvents (runPublish DispState.new inputs).1.history q).all
      (fun e => decide (e ∈ (runPublish DispState.new inputs).1.history) &&
        matchesQuery q e) = true) ∧
    List.Chain' (fun a b => a.seq < b.seq)
      (queryEvents (runPublish DispState.new inputs).1.history q) ∧
    (queryEvents (runPublish DispState.new inputs).1.history q).length ≤
      min (q.limit.getD 100) 500 := by
  have hchain : List.Chain' (fun a b => a.seq < b.seq)
      (runPublish DispState.new inputs).1.history :=
    runPublish_hist DispState.new inputs (by simp [DispState.new])
      (by simp [DispState.new])
  have hq := queryEvents_spec (runPublish DispState.new inputs).1.history
    q hchain
  exact ⟨runPublish_seqs DispState.new inputs, hq.1, hq.2.1, hq.2.2⟩


/-- C8 counterexample: with the blank session id `""`, an upsert with a
nonempty patch writes nothing — the stored document still has no record
for the session — refuting the unrestricted claim that every upsert
merges the patch and creates the record. -/
theorem upsert_empty_session_id_counterexample :
    upsert_session_record "p" "" (JVal.obj [("state", JVal.str "running")])
        "t1" "t2" "t3" (JVal.obj [("sessions", JVal.obj [])])
      = .ok (JVal.obj [("sessions", JVal.obj [])]) ∧
    getSessionsObj (JVal.obj [("sessions", JVal.obj [])]) = some [] := by
  constructor <;> rfl

theorem ingest_empty_session_noop_witness :
    handleIngestEvent ⟨"t", 0, "u"⟩
        (JVal.obj [("type", JVal.str "codex.turn_complete")]) [] =
      ([], [], []) :=
  ingest_empty_session_noop ⟨"t", 0, "u"⟩
    (JVal.obj [("type", JVal.str "codex.turn_complete")]) [] rfl

theorem turn_complete_step_witness :
    (getSup (handleIngestEvent ⟨"t", 0, "u"⟩
        (JVal.obj [("type", JVal.str "codex.turn_complete"),
          ("session_id", JVal.str "s"),
          ("last_assistant_message", JVal.str "hi")])
        [("s", { pending := some ⟨"r1", "do", "tool", 5⟩ })]).1 "s").pending
      = none :=
  ((turn_complete_step ⟨"t", 0, "u"⟩
    (JVal.obj [("type", JVal.str "codex.turn_complete"),
      ("session_id", JVal.str "s"),
      ("last_assistant_message", JVal.str "hi")])
    [("s", { pending := some ⟨"r1", "do", "tool", 5⟩ })] "s"
    rfl rfl (by decide)).2.1 ⟨"r1", "do", "tool", 5⟩ rfl).1

theorem supervisor_retry_policy_witness :
    SupervisorSession.retry_count (getSup (handleIngestEvent ⟨"t", 0, "u"⟩
        (JVal.obj [("type", JVal.str "codex.session.exited"),
          ("session_id", JVal.str "s"),
          ("exit_reason", JVal.str "crash_or_unknown")])
        [("s", { pending := some ⟨"r1", "do", "tool", 5⟩ })]).1 "s") =
      SupervisorSession.retry_count
        (getSup [("s", { pending := some ⟨"r1", "do", "tool", 5⟩ })] "s")
        + 1 :=
  (supervisor_retry_policy ⟨"t", 0, "u"⟩
    (JVal.obj [("type", JVal.str "codex.session.exited"),
      ("session_id", JVal.str "s"),
      ("exit_reason", JVal.str "crash_or_unknown")])
    [("s", { pending := some ⟨"r1", "do", "tool", 5⟩ })] "s"
    ⟨"r1", "do", "tool", 5⟩ []
    rfl rfl (by decide) rfl rfl
    (fun p hp => absurd hp (List.not_mem_nil p))).1

theorem reconcile_stale_result_witness :
    ∃ doc1 sup1 changed sess1,
      reconcile_stale_sessions (fun _ => false) "t" "ts"
          (JVal.obj [("sessions", JVal.obj [("a", JVal.obj
            [("state", JVal.str "running"), ("pid", JVal.num 7)])])])
          ([] : List (String × SupervisorSession))
        = .ok (doc1, sup1, changed) ∧
      getSessionsObj doc1 = some sess1 ∧
      sess1 = [("a", JVal.obj [("state", JVal.str "running"),
        ("pid", JVal.num 7)])].map
        (fun q => if staleB (fun _ => false) q.2 then
          (q.1, patchStale "t" q.2) else q) ∧
      sess1.all (fun q => !staleB (fun _ => false) q.2) = true ∧
      ([("a", JVal.obj [("state", JVal.str "running"),
        ("pid", JVal.num 7)])].filter
          (fun q => staleB (fun _ => false) q.2)).all (fun q =>
        decide (jgetStr (patchStale "t" q.2) "state" = some "exited") &&
        decide (jgetStr (patchStale "t" q.2) "last_exit_reason"
          = some "stale_pid") &&
        jgetIsNull (patchStale "t" q.2) "exit_code") = true ∧
      sup1 = supRemoveIds
        (([("a", JVal.obj [("state", JVal.str "running"),
          ("pid", JVal.num 7)])].filter
            (fun q => staleB (fun _ => false) q.2)).map Prod.fst) [] ∧
      ([("a", JVal.obj [("state", JVal.str "running"),
        ("pid", JVal.num 7)])].filter
          (fun q => staleB (fun _ => false) q.2)).all
        (fun q => (alookup sup1 q.1).isNone) = true :=
  reconcile_stale_result (fun _ => false) "t" "ts"
    (JVal.obj [("sessions", JVal.obj [("a", JVal.obj
      [("state", JVal.str "running"), ("pid", JVal.num 7)])])])
    [] [("a", JVal.obj [("state", JVal.str "running"),
      ("pid", JVal.num 7)])] rfl


theorem upsert_merge_idempotent_frame_witness :
    ∃ doc1 sess1,
      upsert_session_record "p" "s" (.obj [("state", JVal.str "running")])
          "c1" "u1" "s1" (JVal.obj [("sessions", JVal.obj [])])
        = .ok doc1 ∧
      getSessionsObj doc1 = some sess1 ∧
      eraseKey sess1 "s" = eraseKey [] "s" ∧
      (∃ f1, objLookup sess1 "s" = some (.obj f1) ∧
        objLookup f1 "updated_at" = some (.str "u1") ∧
        (∀ kv ∈ [("state", JVal.str "running")], kv.1 ≠ "updated_at" →
          objLookup f1 kv.1 = some kv.2) ∧
        (objLookup [] "s" = none →
          (objLookup f1 "created_at").isSome ∧
          ("created_at" ∉ [("state", JVal.str "running")].map Prod.fst →
            objLookup f1 "created_at" = some (.str "c1")))) ∧
      ∃ doc2 sess2,
        upsert_session_record "p" "s" (.obj [("state", JVal.str "running")])
            "c2" "u2" "s2" doc1
          = .ok doc2 ∧
        getSessionsObj doc2 = some sess2 ∧
        ∃ f1 f2, objLookup sess1 "s" = some (.obj f1) ∧
          objLookup sess2 "s" = some (.obj f2) ∧
          eraseKey f2 "updated_at" = eraseKey f1 "updated_at" :=
  upsert_merge_idempotent_frame "p" "s" [("state", JVal.str "running")]
    "c1" "u1" "s1" "c2" "u2" "s2" (JVal.obj [("sessions", JVal.obj [])]) []
    (by decide) (by decide) rfl (by simp) (Or.inl rfl)

end CcSpec
